import Mathlib

/-!
# Walker: the obstacle-avoidance controller of `src/walker.cpp`

A shallow embedding of `Robot::scan_callback`, `Robot::timer_callback` and
`Robot::detect_obstacle`, followed by the properties proved about them.

Modelling conventions.

* A C++ floating-point object is a `Flt`: a rational, one of the two
  infinities, or NaN.  Comparisons follow IEEE 754.  The subtraction and the
  division of `detect_obstacle` act on `float` operands, and each rounds its
  exact result to binary32 (`Flt.round32`: to nearest, ties to even, 24-bit
  significand, subnormals, overflow to infinity).  The sign of zero is outside
  the model.
* Undefined behaviour (a read outside `scan_.ranges`, a floating-point value
  converted to an integer type that cannot hold it, signed overflow) is the
  result `none`.
* `publisher_->publish` is modelled by returning the list of messages published
  during the call, in order.  Logging is not modelled.
-/

namespace Walker

/-! ## Floating-point values -/

/-- Value of a C++ `float` or `double` object. -/
inductive Flt where
  | finite (q : ℚ)
  | posInf
  | negInf
  | nan
deriving DecidableEq

namespace Flt

/-- IEEE comparison `a < b`: false as soon as one side is NaN. -/
def lt : Flt → Flt → Bool
  | finite a, finite b => decide (a < b)
  | finite _, posInf => true
  | negInf, finite _ => true
  | negInf, posInf => true
  | _, _ => false

/-- IEEE comparison `a == b`: false as soon as one side is NaN. -/
def eq : Flt → Flt → Bool
  | finite a, finite b => decide (a = b)
  | posInf, posInf => true
  | negInf, negInf => true
  | _, _ => false

/-- IEEE comparison `a != b`, the negation of `==`. -/
def ne (a b : Flt) : Bool := !(eq a b)

/-- Nearest integer, a tie going to the even one. -/
def roundEven (x : ℚ) : Int :=
  if x - ⌊x⌋ < 1 / 2 then ⌊x⌋
  else if 1 / 2 < x - ⌊x⌋ then ⌊x⌋ + 1
  else if ⌊x⌋ % 2 = 0 then ⌊x⌋ else ⌊x⌋ + 1

/-- Exponent of the binary32 quantum at magnitude `x`: 23 below the binary
exponent of `x`, and -149 throughout the subnormal range. -/
def quantum32 (x : ℚ) : Int :=
  max (Int.log 2 |x|) (-126) - 23

/-- The multiple of the quantum nearest to `x`, ties to even. -/
def rounded (x : ℚ) : ℚ :=
  (roundEven (x / (2 : ℚ) ^ quantum32 x) : ℚ) * (2 : ℚ) ^ quantum32 x

/-- Rounding of an exact result to binary32: to nearest, ties to even; a
rounded magnitude of `2 ^ 128` or more overflows to an infinity. -/
def round32 (x : ℚ) : Flt :=
  if (2 : ℚ) ^ 128 ≤ rounded x then posInf
  else if rounded x ≤ -(2 : ℚ) ^ 128 then negInf
  else finite (rounded x)

/-- A rational is a binary32 value when rounding to binary32 leaves it as it is. -/
def isF32 (x : ℚ) : Bool := decide (round32 x = finite x)

/-- Subtraction `a - b` of two `float` operands, rounded to binary32. -/
def sub : Flt → Flt → Flt
  | finite a, finite b => round32 (a - b)
  | nan, _ => nan
  | _, nan => nan
  | posInf, posInf => nan
  | negInf, negInf => nan
  | posInf, _ => posInf
  | negInf, _ => negInf
  | finite _, posInf => negInf
  | finite _, negInf => posInf

/-- Division `a / b` of two `float` operands, rounded to binary32.  A zero
divisor is taken as `+0`. -/
def div : Flt → Flt → Flt
  | finite a, finite b =>
      if b = 0 then (if a = 0 then nan else if 0 < a then posInf else negInf)
      else round32 (a / b)
  | nan, _ => nan
  | _, nan => nan
  | finite _, _ => finite 0
  | posInf, finite b => if 0 ≤ b then posInf else negInf
  | negInf, finite b => if 0 ≤ b then negInf else posInf
  | _, _ => nan

/-- Truncation toward zero, the rounding of a floating-to-integer conversion. -/
def trunc (q : ℚ) : Int := if 0 ≤ q then ⌊q⌋ else ⌈q⌉

/-- Least value of a 32-bit `int`. -/
def INT_MIN : Int := -2147483648

/-- Greatest value of a 32-bit `int`. -/
def INT_MAX : Int := 2147483647

/-- Conversion `static_cast<int>(a)`: defined only when the truncated value
fits a 32-bit `int`. -/
def toInt : Flt → Option Int
  | finite q => if INT_MIN ≤ trunc q ∧ trunc q ≤ INT_MAX then some (trunc q) else none
  | _ => none

/-- Implicit conversion of a floating-point value to `size_t` (64 bits), as
happens when it is used as the argument of `std::vector::operator[]`. -/
def toSize : Flt → Option Nat
  | finite q => if 0 ≤ trunc q ∧ trunc q < 2 ^ 64 then some (trunc q).toNat else none
  | _ => none

end Flt

/-- Signed 32-bit addition; overflow is undefined behaviour. -/
def intAdd (a b : Int) : Option Int :=
  if Flt.INT_MIN ≤ a + b ∧ a + b ≤ Flt.INT_MAX then some (a + b) else none

/-- Signed 32-bit subtraction; overflow is undefined behaviour. -/
def intSub (a b : Int) : Option Int :=
  if Flt.INT_MIN ≤ a - b ∧ a - b ≤ Flt.INT_MAX then some (a - b) else none

/-! ## Messages -/

/-- Message `builtin_interfaces/Time`. -/
structure Time where
  sec : Int
  nanosec : Nat
deriving DecidableEq

/-- Message `std_msgs/Header`. -/
structure Header where
  stamp : Time
  frame_id : String
deriving DecidableEq

/-- Message `sensor_msgs/LaserScan`, the type `SCAN` of the source. -/
structure SCAN where
  header : Header
  angle_min : Flt
  angle_max : Flt
  angle_increment : Flt
  time_increment : Flt
  scan_time : Flt
  range_min : Flt
  range_max : Flt
  ranges : List Flt
  intensities : List Flt
deriving DecidableEq

/-- Message `geometry_msgs/Vector3`. -/
structure Vector3 where
  x : Flt
  y : Flt
  z : Flt
deriving DecidableEq

/-- Message `geometry_msgs/Twist`, the type `TWIST` of the source. -/
structure TWIST where
  linear : Vector3
  angular : Vector3
deriving DecidableEq

/-- Value-initialised scan `SCAN()`: every number zero, every sequence empty. -/
def SCAN.init : SCAN :=
  { header := { stamp := { sec := 0, nanosec := 0 }, frame_id := "" }
    angle_min := Flt.finite 0
    angle_max := Flt.finite 0
    angle_increment := Flt.finite 0
    time_increment := Flt.finite 0
    scan_time := Flt.finite 0
    range_min := Flt.finite 0
    range_max := Flt.finite 0
    ranges := []
    intensities := [] }

/-- Value-initialised command `TWIST()`: all six components zero. -/
def TWIST.init : TWIST :=
  { linear := { x := Flt.finite 0, y := Flt.finite 0, z := Flt.finite 0 }
    angular := { x := Flt.finite 0, y := Flt.finite 0, z := Flt.finite 0 } }

/-! ## The controller -/

/-- Modelled from the spec: the enumeration of controller states is declared in
`include/walker.hpp`, which is absent.  The source names its three values
`FORWARD`, `STOP` and `TURN`; the spec calls them ADVANCE, HALT and ROTATE. -/
inductive StateType where
  | FORWARD
  | STOP
  | TURN
deriving DecidableEq

open StateType

/-- Data members of class `Robot` that the three methods read or write. -/
structure Robot where
  scan_ : SCAN
  left_dist_ : Flt
  center_dist_ : Flt
  right_dist_ : Flt
  state_ : StateType
deriving DecidableEq

set_option linter.dupNamespace false in
/-- Constructor `Robot::Robot()`: distances zero, state `STOP`, and `scan_`
value-initialised since no sample has been stored yet. -/
def Robot.Robot : Robot :=
  { scan_ := SCAN.init
    left_dist_ := Flt.finite 0.0
    center_dist_ := Flt.finite 0.0
    right_dist_ := Flt.finite 0.0
    state_ := STOP }

/-- Method `Robot::scan_callback`. -/
def scan_callback (r : Robot) (msg : SCAN) : Robot :=
  { r with scan_ := msg }

/-- The three subscripts at which `detect_obstacle` reads `scan_.ranges`. -/
structure Rays where
  center : Int
  left : Int
  right : Int
deriving DecidableEq

/-- Subscript computation of `Robot::detect_obstacle`, both branches. -/
def ray_indices (scan_ : SCAN) : Option Rays :=
  if Flt.ne scan_.angle_min (Flt.finite 0) then do
    let ray_idx ← Flt.toInt
      (Flt.sub (Flt.div (Flt.sub scan_.angle_max scan_.angle_min) scan_.angle_increment)
        (Flt.finite 1))
    let l ← intSub ray_idx 25
    let r ← intAdd ray_idx 25
    some { center := ray_idx, left := l, right := r }
  else do
    let ray_idx : Int := 0
    let l ← Flt.toSize (Flt.sub (Flt.div scan_.angle_max scan_.angle_increment) (Flt.finite 25))
    let r ← intAdd ray_idx 25
    some { center := ray_idx, left := l, right := r }

/-- Read `ranges[i]`.  A negative `int` subscript converts to a `size_t` above
every possible vector size, so it is outside the array like any `i ≥ size`. -/
def readAt (ranges : List Flt) (i : Int) : Option Flt :=
  if 0 ≤ i then ranges[i.toNat]? else none

/-- Method `Robot::detect_obstacle`: the verdict and the updated object. -/
def detect_obstacle (r : Robot) : Option (Bool × Robot) := do
  let idx ← ray_indices r.scan_
  let c ← readAt r.scan_.ranges idx.center
  let l ← readAt r.scan_.ranges idx.left
  let rt ← readAt r.scan_.ranges idx.right
  let r1 := { r with center_dist_ := c, left_dist_ := l, right_dist_ := rt }
  if Flt.lt r1.left_dist_ (Flt.finite 0.8) || Flt.lt r1.center_dist_ (Flt.finite 0.8)
      || Flt.lt r1.right_dist_ (Flt.finite 0.8) then
    some (true, r1)
  else
    some (false, r1)

/-- Method `Robot::timer_callback`: the updated object and the messages
published on `cmd_vel` during the call. -/
def timer_callback (r : Robot) : Option (Robot × List TWIST) :=
  if r.scan_.header.stamp.sec = 0 then some (r, [])
  else
    let message := TWIST.init
    match r.state_ with
    | FORWARD => do
      let (obstacle, r1) ← detect_obstacle r
      if obstacle then
        let message := { message with linear := { message.linear with x := Flt.finite 0.0 } }
        let message := { message with linear := { message.linear with y := Flt.finite 0.0 } }
        let message := { message with linear := { message.linear with z := Flt.finite 0.0 } }
        some ({ r1 with state_ := STOP }, [message])
      else some (r1, [])
    | STOP => do
      let (obstacle, r1) ← detect_obstacle r
      if obstacle then
        let message := { message with angular := { message.angular with z := Flt.finite 0.1 } }
        some ({ r1 with state_ := TURN }, [message])
      else
        let message := { message with linear := { message.linear with x := Flt.finite 0.2 } }
        some ({ r1 with state_ := FORWARD }, [message])
    | TURN => do
      let (obstacle, r1) ← detect_obstacle r
      if !obstacle then
        let message := { message with linear := { message.linear with x := Flt.finite 0.2 } }
        some ({ r1 with state_ := FORWARD }, [message])
      else some (r1, [])

/-- The verdict `detect_obstacle` gives on a stored sample, if defined. -/
def verdict (s : SCAN) : Option Bool :=
  (detect_obstacle (scan_callback Robot.Robot s)).map Prod.fst

/-- Run `n` consecutive calls of `timer_callback`, collecting what they publish. -/
def ticks : Nat → Robot → Option (Robot × List TWIST)
  | 0, r => some (r, [])
  | n + 1, r => do
    let (r1, out1) ← timer_callback r
    let (r2, out2) ← ticks n r1
    some (r2, out1 ++ out2)

/-- Deliver the samples one by one, each followed by one `timer_callback`. -/
def run : Robot → List SCAN → Option (Robot × List TWIST)
  | r, [] => some (r, [])
  | r, s :: rest => do
    let (r1, out1) ← timer_callback (scan_callback r s)
    let (r2, out2) ← run r1 rest
    some (r2, out1 ++ out2)

/-- Disjunction of the three threshold tests of `detect_obstacle`. -/
def blocked3 (l c rt : Flt) : Bool :=
  Flt.lt l (Flt.finite 0.8) || Flt.lt c (Flt.finite 0.8) || Flt.lt rt (Flt.finite 0.8)

/-! ## The transition table of the spec and concrete samples -/

/-- Command with every component zero (the explicit stop). -/
def stopCmd : TWIST :=
  { linear := { x := Flt.finite 0, y := Flt.finite 0, z := Flt.finite 0 }
    angular := { x := Flt.finite 0, y := Flt.finite 0, z := Flt.finite 0 } }

/-- Command that spins in place: zero linear velocity, angular z = 0.1. -/
def spinCmd : TWIST :=
  { linear := { x := Flt.finite 0, y := Flt.finite 0, z := Flt.finite 0 }
    angular := { x := Flt.finite 0, y := Flt.finite 0, z := Flt.finite 0.1 } }

/-- Command that advances: linear x = 0.2, zero angular velocity. -/
def forwardCmd : TWIST :=
  { linear := { x := Flt.finite 0.2, y := Flt.finite 0, z := Flt.finite 0 }
    angular := { x := Flt.finite 0, y := Flt.finite 0, z := Flt.finite 0 } }

/-- Table of section 4.2 of the spec, written from its words: current state
and obstacle verdict give the next state and the commands to emit. -/
def specTable : StateType → Bool → StateType × List TWIST
  | FORWARD, true => (STOP, [stopCmd])
  | FORWARD, false => (FORWARD, [])
  | STOP, true => (TURN, [spinCmd])
  | STOP, false => (FORWARD, [forwardCmd])
  | TURN, true => (TURN, [])
  | TURN, false => (FORWARD, [forwardCmd])

/-- A full-circle sample of 400 rays, one every 1/64 rad from 0 to 6.25 rad,
all reading `d`, stamped `sec` seconds. -/
def scan400 (sec : Int) (d : Flt) : SCAN :=
  { SCAN.init with
    header := { stamp := { sec := sec, nanosec := 0 }, frame_id := "laser" }
    angle_min := Flt.finite 0
    angle_max := Flt.finite 6.25
    angle_increment := Flt.finite 0.015625
    ranges := List.replicate 400 d }

/-- A robot fresh from its constructor that has received `scan400 sec d`. -/
def robot400 (sec : Int) (d : Flt) : Robot :=
  scan_callback Robot.Robot (scan400 sec d)

/-- The sample of property P5 of the spec: `angle_min = 0`, `angle_max = 2.0`,
`angle_increment = 0.01` as a `float` field holds it, that is rounded to
binary32, and 200 ranges; ray `i` reads `i` distance units, so that a stored
distance tells which subscript it was read at. -/
def scanP5 : SCAN :=
  { SCAN.init with
    header := { stamp := { sec := 1, nanosec := 0 }, frame_id := "laser" }
    angle_min := Flt.finite 0
    angle_max := Flt.finite 2.0
    angle_increment := Flt.round32 0.01
    ranges := (List.range 200).map (fun (i : Nat) => Flt.finite (i : ℚ)) }

/-- A sample with a nonzero minimum angle whose span is not a whole number of
increments: from 0.25 rad to 100 rad in steps of 1 rad, 200 ranges, ray `i`
reading `i` distance units. -/
def scanAsym : SCAN :=
  { SCAN.init with
    header := { stamp := { sec := 1, nanosec := 0 }, frame_id := "laser" }
    angle_min := Flt.finite 0.25
    angle_max := Flt.finite 100
    angle_increment := Flt.finite 1
    ranges := (List.range 200).map (fun (i : Nat) => Flt.finite (i : ℚ)) }

/-- Sample invariant of the spec's data model (section 3), in its words:
"increment > 0; range count matches the angular span".  The count matches when
it is the number of increments in the span to the nearest integer, as in P5
(200 ranges for 2.0 / 0.01), or one more, as when both end rays are included
(360 rays one degree apart). -/
def wellFormed (s : SCAN) : Bool :=
  match s.angle_min, s.angle_max, s.angle_increment with
  | Flt.finite amin, Flt.finite amax, Flt.finite inc =>
      decide (0 < inc)
        && (decide ((s.ranges.length : Int) = round ((amax - amin) / inc))
          || decide ((s.ranges.length : Int) = round ((amax - amin) / inc) + 1))
  | _, _, _ => false

/-- Subscript `i` denotes an element of `ranges`. -/
def validIndex (ranges : List Flt) (i : Int) : Prop :=
  0 ≤ i ∧ i < ranges.length

/-- A well-formed sample with `angle_min = 0` and few rays: 25 ranges of 1.0,
one every 0.125 rad from 0 to 3.125 rad. -/
def scanShort : SCAN :=
  { SCAN.init with
    header := { stamp := { sec := 1, nanosec := 0 }, frame_id := "laser" }
    angle_min := Flt.finite 0
    angle_max := Flt.finite 3.125
    angle_increment := Flt.finite 0.125
    ranges := List.replicate 25 (Flt.finite 1) }

/-- A well-formed sample with a nonzero minimum angle: 193 ranges of 1.0, one
every 1/64 rad from -1.5 rad to 1.5 rad, both ends included. -/
def scanSym : SCAN :=
  { SCAN.init with
    header := { stamp := { sec := 1, nanosec := 0 }, frame_id := "laser" }
    angle_min := Flt.finite (-1.5)
    angle_max := Flt.finite 1.5
    angle_increment := Flt.finite 0.015625
    ranges := List.replicate 193 (Flt.finite 1) }

/-- A sample with a negative increment: `angle_min = 0`, `angle_max = -50`,
`angle_increment = -1`, 26 ranges of 1.0. -/
def scanNegInc : SCAN :=
  { SCAN.init with
    header := { stamp := { sec := 1, nanosec := 0 }, frame_id := "laser" }
    angle_min := Flt.finite 0
    angle_max := Flt.finite (-50)
    angle_increment := Flt.finite (-1)
    ranges := List.replicate 26 (Flt.finite 1) }

/-- A sample whose range count does not match its span: the geometry of
`scan400` (400 increments) with 500 ranges of 1.0. -/
def scanMiscount : SCAN :=
  { SCAN.init with
    header := { stamp := { sec := 1, nanosec := 0 }, frame_id := "laser" }
    angle_min := Flt.finite 0
    angle_max := Flt.finite 6.25
    angle_increment := Flt.finite 0.015625
    ranges := List.replicate 500 (Flt.finite 1) }

/-- Reading that is not a distance: `+infinity` (nothing within range) or NaN
(invalid measurement). -/
def isSentinel : Flt → Bool
  | Flt.posInf => true
  | Flt.nan => true
  | _ => false

/-- A robot as constructed, moved to state `st`. -/
def robotIn (st : StateType) : Robot :=
  { Robot.Robot with state_ := st }

/-- The geometry of `scan400` with nothing within range straight ahead: ray 0
reads `+infinity`, every other ray reads 1.0. -/
def scanOpenAhead : SCAN :=
  { SCAN.init with
    header := { stamp := { sec := 1, nanosec := 0 }, frame_id := "laser" }
    angle_min := Flt.finite 0
    angle_max := Flt.finite 6.25
    angle_increment := Flt.finite 0.015625
    ranges := (List.range 400).map (fun (i : Nat) => if i = 0 then Flt.posInf else Flt.finite 1) }

/-- Deliver the samples to `scan_callback` one after the other with no tick in
between, and collect what is published meanwhile: `scan_callback` has no
`publish` call, so no delivery adds a message. -/
def deliver : Robot → List SCAN → Robot × List TWIST
  | r, [] => (r, [])
  | r, s :: rest => deliver (scan_callback r s) rest

/-- The command that goes with a state: forward for `FORWARD`, all zero for
`STOP`, spin for `TURN`. -/
def commandFor : StateType → TWIST
  | FORWARD => forwardCmd
  | STOP => stopCmd
  | TURN => spinCmd

/-- A tick classifies sample `s` as `v`: the sample passes the stamp guard of
`timer_callback`, so that `detect_obstacle` is run on it, and the verdict is `v`. -/
def classified (s : SCAN) (v : Bool) : Prop :=
  s.header.stamp.sec ≠ 0 ∧ verdict s = some v

/-- The geometry and sampled readings of `scan400 1 (Flt.finite 1)`, with every
ray other than the three sampled ones (0, 25 and 375) reading 0.1. -/
def scanCluttered : SCAN :=
  { SCAN.init with
    header := { stamp := { sec := 1, nanosec := 0 }, frame_id := "laser" }
    angle_min := Flt.finite 0
    angle_max := Flt.finite 6.25
    angle_increment := Flt.finite 0.015625
    ranges := (List.range 400).map
      (fun (i : Nat) => if i = 0 ∨ i = 25 ∨ i = 375 then Flt.finite 1 else Flt.finite 0.1) }

/-- A sample with a nonzero minimum angle and a very long range array: from
-31 rad to 536870912 rad in steps of 1 rad, and 536870944 ranges of 1.0, one
more than the number of increments in the span. -/
def scanHuge : SCAN :=
  { SCAN.init with
    header := { stamp := { sec := 1, nanosec := 0 }, frame_id := "laser" }
    angle_min := Flt.finite (-31)
    angle_max := Flt.finite 536870912
    angle_increment := Flt.finite 1
    ranges := List.replicate 536870944 (Flt.finite 1) }

/-- A sample on which exact and single-precision arithmetic part ways:
`angle_min = 0`, `angle_max = 20`, `angle_increment = 0.1` rounded to binary32
(slightly above 0.1), and 200 ranges, ray `i` reading `i` distance units.  The
exact quotient is just below 200; the `float` quotient is 200. -/
def scanTenth : SCAN :=
  { SCAN.init with
    header := { stamp := { sec := 1, nanosec := 0 }, frame_id := "laser" }
    angle_min := Flt.finite 0
    angle_max := Flt.finite 20
    angle_increment := Flt.round32 0.1
    ranges := (List.range 200).map (fun (i : Nat) => Flt.finite (i : ℚ)) }

/-- A sample with a nonzero minimum angle on which exact and single-precision
arithmetic part ways: from -1.5 rad to 1.5 rad in steps of 0.05 rounded to
binary32 (slightly above 0.05), and 100 ranges, ray `i` reading `i` distance
units.  The exact quotient is just below 60; the `float` quotient is 60. -/
def scanTwentieth : SCAN :=
  { SCAN.init with
    header := { stamp := { sec := 1, nanosec := 0 }, frame_id := "laser" }
    angle_min := Flt.finite (-1.5)
    angle_max := Flt.finite 1.5
    angle_increment := Flt.round32 0.05
    ranges := (List.range 100).map (fun (i : Nat) => Flt.finite (i : ℚ)) }

/-- A full-circle lidar sample of 360 rays one degree apart, as a driver fills
it: `angle_min = 0`, `angle_max = 6.2657318115234375` (359 degrees in radians,
rounded to binary32), `angle_increment = 9370165 / 2 ^ 29` (one degree in
radians, rounded to binary32), ray `i` reading `i` distance units.  The exact
quotient is just below 359; the `float` quotient is 359. -/
def scanLidar : SCAN :=
  { SCAN.init with
    header := { stamp := { sec := 1, nanosec := 0 }, frame_id := "laser" }
    angle_min := Flt.finite 0
    angle_max := Flt.finite 6.2657318115234375
    angle_increment := Flt.finite (9370165 / 536870912)
    ranges := (List.range 360).map (fun (i : Nat) => Flt.finite (i : ℚ)) }

/-! ## Auxiliary lemmas: rounding to binary32 -/

namespace Flt

theorem roundEven_intCast (n : Int) : roundEven (n : ℚ) = n := by
  simp [roundEven]

theorem roundEven_sub_le (x : ℚ) : |(roundEven x : ℚ) - x| ≤ 1 / 2 := by
  have h0 := Int.floor_le x
  have h1 := Int.lt_floor_add_one x
  unfold roundEven
  rw [abs_le]
  split_ifs with a b c
  · constructor <;> linarith
  · push_cast; constructor <;> linarith
  · constructor <;> linarith
  · push_cast; constructor <;> linarith

theorem roundEven_of_near (x : ℚ) (n : Int) (h1 : (n : ℚ) - 1 / 2 < x) (h2 : x < (n : ℚ) + 1 / 2) :
    roundEven x = n := by
  have h := roundEven_sub_le x
  rw [abs_le] at h
  have a : ((roundEven x : Int) : ℚ) < (n : ℚ) + 1 := by linarith [h.2]
  have b : (n : ℚ) - 1 < ((roundEven x : Int) : ℚ) := by linarith [h.1]
  have a2 : roundEven x < n + 1 := by exact_mod_cast a
  have b2 : n - 1 < roundEven x := by exact_mod_cast b
  omega

theorem log2_eq (x : ℚ) (e : Int) (h1 : (2 : ℚ) ^ e ≤ |x|) (h2 : |x| < (2 : ℚ) ^ (e + 1)) :
    Int.log 2 |x| = e := by
  have hpos : (0 : ℚ) < |x| := lt_of_lt_of_le (by positivity) h1
  have a : e ≤ Int.log 2 |x| := by
    rw [← Int.zpow_le_iff_le_log (by norm_num) hpos]
    simpa using h1
  have b : Int.log 2 |x| < e + 1 := by
    rw [← Int.lt_zpow_iff_log_lt (by norm_num) hpos]
    simpa using h2
  omega

theorem quantum32_ge (x : ℚ) : -149 ≤ quantum32 x := by
  unfold quantum32
  have := le_max_right (Int.log 2 |x|) (-126)
  omega

theorem abs_lt_quantum32 (x : ℚ) : |x| < (2 : ℚ) ^ (quantum32 x + 24) := by
  have h := Int.lt_zpow_succ_log_self (b := 2) (by norm_num) |x|
  have h2 : Int.log 2 |x| + 1 ≤ quantum32 x + 24 := by
    unfold quantum32
    have := le_max_left (Int.log 2 |x|) (-126)
    omega
  calc |x| < ((2 : ℕ) : ℚ) ^ (Int.log 2 |x| + 1) := h
    _ = (2 : ℚ) ^ (Int.log 2 |x| + 1) := by norm_num
    _ ≤ (2 : ℚ) ^ (quantum32 x + 24) := zpow_le_zpow_right₀ (by norm_num) h2

theorem round32_finite (x y : ℚ) (h : round32 x = finite y) :
    y = (roundEven (x / (2 : ℚ) ^ quantum32 x) : ℚ) * (2 : ℚ) ^ quantum32 x
      ∧ |y| < (2 : ℚ) ^ 128 := by
  unfold round32 rounded at h
  split_ifs at h with a b
  simp only [finite.injEq] at h
  subst h
  refine ⟨rfl, ?_⟩
  rw [abs_lt]
  constructor <;> [skip; skip]
  · push_neg at b; exact b
  · push_neg at a; exact a

theorem round32_err (x y : ℚ) (h : round32 x = finite y) :
    |y - x| ≤ (2 : ℚ) ^ quantum32 x / 2 := by
  obtain ⟨hy, -⟩ := round32_finite x y h
  have hq : (0 : ℚ) < (2 : ℚ) ^ quantum32 x := by positivity
  have hr := roundEven_sub_le (x / (2 : ℚ) ^ quantum32 x)
  have e : y - x = ((roundEven (x / (2 : ℚ) ^ quantum32 x) : ℚ) - x / (2 : ℚ) ^ quantum32 x)
      * (2 : ℚ) ^ quantum32 x := by
    rw [hy]; field_simp
  rw [e, abs_mul, abs_of_pos hq]
  calc _ ≤ 1 / 2 * (2 : ℚ) ^ quantum32 x := by
        exact mul_le_mul_of_nonneg_right hr (le_of_lt hq)
    _ = _ := by ring

theorem round32_zero : round32 0 = finite 0 := by
  unfold round32 rounded
  have a : ¬ ((2 : ℚ) ^ 128 ≤ 0) := by norm_num
  simp [roundEven, a]

theorem quantum32_le_of_lt (x : ℚ) (k : Int) (hx : x ≠ 0) (hk : -149 ≤ k)
    (h : |x| < (2 : ℚ) ^ (k + 24)) : quantum32 x ≤ k := by
  have hpos : (0 : ℚ) < |x| := abs_pos.mpr hx
  have hl : Int.log 2 |x| < k + 24 := by
    rw [← Int.lt_zpow_iff_log_lt (by norm_num) hpos]
    simpa using h
  unfold quantum32
  have := max_le (a := Int.log 2 |x|) (b := -126) (c := k + 23) (by omega) (by omega)
  omega

theorem round32_of_multiple (x : ℚ) (m : Int) (hm : x = (m : ℚ) * (2 : ℚ) ^ quantum32 x)
    (hlt : |x| < (2 : ℚ) ^ 128) : round32 x = finite x := by
  have hq : (2 : ℚ) ^ quantum32 x ≠ 0 := by positivity
  have e : x / (2 : ℚ) ^ quantum32 x = (m : ℚ) := by
    rw [div_eq_iff hq]; exact hm
  have e2 : (roundEven (x / (2 : ℚ) ^ quantum32 x) : ℚ) * (2 : ℚ) ^ quantum32 x = x := by
    rw [e, roundEven_intCast]; exact hm.symm
  rw [abs_lt] at hlt
  unfold round32 rounded
  rw [e2]
  have a : ¬ (2 : ℚ) ^ 128 ≤ x := not_le.mpr hlt.2
  have b : ¬ x ≤ -(2 : ℚ) ^ 128 := not_le.mpr hlt.1
  simp [a, b]

theorem round32_exact (n k : Int) (hn : |n| < 2 ^ 24) (hk1 : -149 ≤ k) (hk2 : k ≤ 104) :
    round32 ((n : ℚ) * (2 : ℚ) ^ k) = finite ((n : ℚ) * (2 : ℚ) ^ k) := by
  by_cases hn0 : n = 0
  · subst hn0; simpa using round32_zero
  have h2k : (0 : ℚ) < (2 : ℚ) ^ k := by positivity
  have hnq : |(n : ℚ)| < (2 : ℚ) ^ (24 : ℤ) := by
    have : ((|n| : Int) : ℚ) < ((2 ^ 24 : Int) : ℚ) := by exact_mod_cast hn
    have e : ((2 ^ 24 : Int) : ℚ) = (2 : ℚ) ^ (24 : ℤ) := by norm_num
    rw [e] at this
    simpa using this
  have habs : |(n : ℚ) * (2 : ℚ) ^ k| < (2 : ℚ) ^ (k + 24) := by
    rw [abs_mul, abs_of_pos h2k, add_comm, zpow_add₀ (by norm_num)]
    exact mul_lt_mul_of_pos_right hnq h2k
  have hx : (n : ℚ) * (2 : ℚ) ^ k ≠ 0 := by
    apply mul_ne_zero
    · exact_mod_cast hn0
    · exact ne_of_gt h2k
  have hqk := quantum32_le_of_lt _ k hx hk1 habs
  obtain ⟨d, hd⟩ : ∃ d : ℕ, k = quantum32 ((n : ℚ) * (2 : ℚ) ^ k) + d :=
    ⟨(k - quantum32 ((n : ℚ) * (2 : ℚ) ^ k)).toNat, by omega⟩
  apply round32_of_multiple _ (n * 2 ^ d)
  · have : (2 : ℚ) ^ k
        = (2 : ℚ) ^ (d : ℤ) * (2 : ℚ) ^ quantum32 ((n : ℚ) * (2 : ℚ) ^ k) := by
      rw [← zpow_add₀ (by norm_num)]
      congr 1
      omega
    push_cast
    rw [mul_assoc, ← zpow_natCast, ← this]
  · calc |(n : ℚ) * (2 : ℚ) ^ k| < (2 : ℚ) ^ (k + 24) := habs
      _ ≤ (2 : ℚ) ^ (128 : ℤ) := zpow_le_zpow_right₀ (by norm_num) (by omega)
      _ = (2 : ℚ) ^ 128 := by norm_num

theorem round32_intCast (n : Int) (hn : |n| < 2 ^ 24) : round32 (n : ℚ) = finite (n : ℚ) := by
  have := round32_exact n 0 hn (by decide) (by decide)
  simpa using this

theorem quantum32_eq (x : ℚ) (k : Int) (hk : -149 ≤ k)
    (h1 : (2 : ℚ) ^ (k + 23) ≤ |x|) (h2 : |x| < (2 : ℚ) ^ (k + 24)) : quantum32 x = k := by
  have hl := log2_eq x (k + 23) h1 (by rw [show k + 23 + 1 = k + 24 by ring]; exact h2)
  unfold quantum32
  rw [hl, max_eq_left (by omega)]
  ring

theorem round32_near (x : ℚ) (k n : Int) (hq : quantum32 x = k)
    (h1 : (n : ℚ) - 1 / 2 < x / (2 : ℚ) ^ k) (h2 : x / (2 : ℚ) ^ k < (n : ℚ) + 1 / 2)
    (hfin : |(n : ℚ) * (2 : ℚ) ^ k| < (2 : ℚ) ^ 128) :
    round32 x = finite ((n : ℚ) * (2 : ℚ) ^ k) := by
  have hr : roundEven (x / (2 : ℚ) ^ k) = n := roundEven_of_near _ n h1 h2
  rw [abs_lt] at hfin
  unfold round32 rounded
  rw [hq, hr]
  have a : ¬ (2 : ℚ) ^ 128 ≤ (n : ℚ) * (2 : ℚ) ^ k := not_le.mpr hfin.2
  have b : ¬ (n : ℚ) * (2 : ℚ) ^ k ≤ -(2 : ℚ) ^ 128 := not_le.mpr hfin.1
  simp [a, b]

theorem round32_eq (x : ℚ) (n k : Int) (hx : x = (n : ℚ) * (2 : ℚ) ^ k) (hn : |n| < 2 ^ 24)
    (hk1 : -149 ≤ k) (hk2 : k ≤ 104) : round32 x = finite x := by
  rw [hx]; exact round32_exact n k hn hk1 hk2

theorem round32_hundredth : round32 0.01 = finite (5368709 / 536870912) := by
  have hq : quantum32 0.01 = -30 := by
    apply quantum32_eq _ _ (by decide)
    · rw [abs_of_pos (by norm_num)]; norm_num
    · rw [abs_of_pos (by norm_num)]; norm_num
  have h := round32_near 0.01 (-30) 10737418 hq (by norm_num) (by norm_num)
    (by rw [abs_of_pos (by norm_num)]; norm_num)
  rw [h]
  norm_num

theorem quantum32_normal (x : ℚ) (hx : x ≠ 0) (hl : -126 ≤ Int.log 2 |x|) :
    (2 : ℚ) ^ quantum32 x ≤ |x| / 8388608 := by
  have hpos : (0 : ℚ) < |x| := abs_pos.mpr hx
  have h := Int.zpow_log_le_self (b := 2) (by norm_num) hpos
  have hq : quantum32 x = Int.log 2 |x| + (-23) := by
    unfold quantum32
    rw [max_eq_left hl]; ring
  rw [hq, zpow_add₀ (by norm_num)]
  have h' : (2 : ℚ) ^ Int.log 2 |x| ≤ |x| := by simpa using h
  have e : (2 : ℚ) ^ (-23 : ℤ) = 1 / 8388608 := by norm_num
  rw [e]
  linarith

theorem quantum32_subnormal (x : ℚ) (hl : Int.log 2 |x| < -126) : quantum32 x = -149 := by
  unfold quantum32
  rw [max_eq_right (by omega)]
  rfl

theorem rounded_zero : rounded 0 = 0 := by
  simp [rounded, roundEven]

theorem rounded_err (x : ℚ) : |rounded x - x| ≤ (2 : ℚ) ^ quantum32 x / 2 := by
  have hq : (0 : ℚ) < (2 : ℚ) ^ quantum32 x := by positivity
  have hr := roundEven_sub_le (x / (2 : ℚ) ^ quantum32 x)
  have e : rounded x - x = ((roundEven (x / (2 : ℚ) ^ quantum32 x) : ℚ)
      - x / (2 : ℚ) ^ quantum32 x) * (2 : ℚ) ^ quantum32 x := by
    unfold rounded; field_simp
  rw [e, abs_mul, abs_of_pos hq]
  calc _ ≤ 1 / 2 * (2 : ℚ) ^ quantum32 x := by
        exact mul_le_mul_of_nonneg_right hr (le_of_lt hq)
    _ = _ := by ring

theorem rounded_err_rel (x : ℚ) :
    |rounded x - x| ≤ |x| / 16777216 + (2 : ℚ) ^ (-150 : ℤ) := by
  by_cases hx : x = 0
  · subst hx
    rw [rounded_zero]
    simp
    positivity
  have he := rounded_err x
  by_cases hl : -126 ≤ Int.log 2 |x|
  · have := quantum32_normal x hx hl
    have hd : (0 : ℚ) < (2 : ℚ) ^ (-150 : ℤ) := by positivity
    linarith
  · have hq := quantum32_subnormal x (by omega)
    rw [hq] at he
    have e : (2 : ℚ) ^ (-149 : ℤ) / 2 = (2 : ℚ) ^ (-150 : ℤ) := by norm_num
    rw [e] at he
    have h0 : (0 : ℚ) ≤ |x| / 16777216 := by positivity
    exact le_trans he (le_add_of_nonneg_left h0)

theorem rounded_err_grid (x : ℚ) (m : Int) (hg : x = (m : ℚ) * (2 : ℚ) ^ (-149 : ℤ)) :
    |rounded x - x| ≤ |x| / 16777216 := by
  by_cases hx : x = 0
  · subst hx
    rw [rounded_zero]
    simp
  have he := rounded_err x
  by_cases hl : -126 ≤ Int.log 2 |x|
  · have := quantum32_normal x hx hl
    linarith
  · have hq := quantum32_subnormal x (by omega)
    have e : x / (2 : ℚ) ^ (-149 : ℤ) = (m : ℚ) := by
      rw [div_eq_iff (by positivity)]; exact hg
    have hy : rounded x = x := by
      unfold rounded
      rw [hq, e, roundEven_intCast, ← hg]
    rw [hy]
    simp
    positivity

theorem round32_rounded (x y : ℚ) (h : round32 x = finite y) : y = rounded x :=
  (round32_finite x y h).1

theorem round32_err_rel (x y : ℚ) (h : round32 x = finite y) :
    |y - x| ≤ |x| / 16777216 + (2 : ℚ) ^ (-150 : ℤ) := by
  rw [round32_rounded x y h]; exact rounded_err_rel x

theorem round32_err_grid (x y : ℚ) (m : Int) (hg : x = (m : ℚ) * (2 : ℚ) ^ (-149 : ℤ))
    (h : round32 x = finite y) : |y - x| ≤ |x| / 16777216 := by
  rw [round32_rounded x y h]; exact rounded_err_grid x m hg

theorem round32_isFinite (x : ℚ) (hx : |x| ≤ (2 : ℚ) ^ 127) : round32 x = finite (rounded x) := by
  have he := rounded_err_rel x
  have h0 := abs_nonneg x
  have hd : (2 : ℚ) ^ (-150 : ℤ) ≤ 1 := by norm_num
  have hb : |rounded x| < (2 : ℚ) ^ 128 := by
    have h1 : |rounded x| ≤ |rounded x - x| + |x| := by
      have := abs_add (rounded x - x) x
      simpa using this
    have e : (2 : ℚ) ^ 128 = 2 * (2 : ℚ) ^ 127 := by norm_num
    have h127 : (1 : ℚ) ≤ (2 : ℚ) ^ 127 := by norm_num
    rw [e]
    linarith
  rw [abs_lt] at hb
  unfold round32
  have a : ¬ (2 : ℚ) ^ 128 ≤ rounded x := not_le.mpr hb.2
  have b : ¬ rounded x ≤ -(2 : ℚ) ^ 128 := not_le.mpr hb.1
  simp [a, b]

theorem round32_bounds_nonneg (x y : ℚ) (h : round32 x = finite y) (hx : 0 ≤ x) :
    x - x / 16777216 - (2 : ℚ) ^ (-150 : ℤ) ≤ y
      ∧ y ≤ x + x / 16777216 + (2 : ℚ) ^ (-150 : ℤ) := by
  have he := round32_err_rel x y h
  rw [abs_of_nonneg hx, abs_le] at he
  constructor <;> linarith [he.1, he.2]

theorem round32_bounds_nonpos (x y : ℚ) (h : round32 x = finite y) (hx : x ≤ 0) :
    x + x / 16777216 - (2 : ℚ) ^ (-150 : ℤ) ≤ y
      ∧ y ≤ x - x / 16777216 + (2 : ℚ) ^ (-150 : ℤ) := by
  have he := round32_err_rel x y h
  rw [abs_of_nonpos hx, abs_le] at he
  constructor <;> linarith [he.1, he.2]

theorem round32_grid_nonneg (x y : ℚ) (m : Int) (hg : x = (m : ℚ) * (2 : ℚ) ^ (-149 : ℤ))
    (h : round32 x = finite y) (hx : 0 ≤ x) :
    x - x / 16777216 ≤ y ∧ y ≤ x + x / 16777216 := by
  have he := round32_err_grid x y m hg h
  rw [abs_of_nonneg hx, abs_le] at he
  constructor <;> linarith [he.1, he.2]

theorem round32_grid_nonpos (x y : ℚ) (m : Int) (hg : x = (m : ℚ) * (2 : ℚ) ^ (-149 : ℤ))
    (h : round32 x = finite y) (hx : x ≤ 0) :
    x + x / 16777216 ≤ y ∧ y ≤ x - x / 16777216 := by
  have he := round32_err_grid x y m hg h
  rw [abs_of_nonpos hx, abs_le] at he
  constructor <;> linarith [he.1, he.2]

theorem isF32_grid (x : ℚ) (h : isF32 x = true) :
    ∃ m : Int, x = (m : ℚ) * (2 : ℚ) ^ (-149 : ℤ) := by
  have h1 : round32 x = finite x := by simpa [isF32] using h
  obtain ⟨hy, -⟩ := round32_finite x x h1
  have hq := quantum32_ge x
  obtain ⟨d, hd⟩ : ∃ d : ℕ, quantum32 x = -149 + d := ⟨(quantum32 x + 149).toNat, by omega⟩
  refine ⟨roundEven (x / (2 : ℚ) ^ quantum32 x) * 2 ^ d, ?_⟩
  have e : (2 : ℚ) ^ quantum32 x = (2 : ℚ) ^ (d : ℤ) * (2 : ℚ) ^ (-149 : ℤ) := by
    have e0 : quantum32 x = (d : ℤ) + (-149) := by omega
    rw [e0, zpow_add₀ (by norm_num)]
  push_cast
  rw [mul_assoc, ← zpow_natCast, ← e]
  exact hy

theorem sub_grid (a b : ℚ) (ha : isF32 a = true) (hb : isF32 b = true) :
    ∃ m : Int, a - b = (m : ℚ) * (2 : ℚ) ^ (-149 : ℤ) := by
  obtain ⟨m1, h1⟩ := isF32_grid a ha
  obtain ⟨m2, h2⟩ := isF32_grid b hb
  exact ⟨m1 - m2, by rw [h1, h2]; push_cast; ring⟩

theorem isF32_of_eq (x : ℚ) (n k : Int) (hx : x = (n : ℚ) * (2 : ℚ) ^ k) (hn : |n| < 2 ^ 24)
    (hk1 : -149 ≤ k) (hk2 : k ≤ 104) : isF32 x = true := by
  simp [isF32, round32_eq x n k hx hn hk1 hk2]

theorem round32_mantissa (x y : ℚ) (h : round32 x = finite y) :
    ∃ N : Int, y = (N : ℚ) * (2 : ℚ) ^ quantum32 x ∧ |N| ≤ 2 ^ 24 := by
  obtain ⟨hy, -⟩ := round32_finite x y h
  refine ⟨_, hy, ?_⟩
  have hq : (0 : ℚ) < (2 : ℚ) ^ quantum32 x := by positivity
  have hx := abs_lt_quantum32 x
  have hdiv : |x / (2 : ℚ) ^ quantum32 x| < 16777216 := by
    rw [abs_div, abs_of_pos hq, div_lt_iff₀ hq]
    have e : (2 : ℚ) ^ (quantum32 x + 24) = 16777216 * (2 : ℚ) ^ quantum32 x := by
      rw [zpow_add₀ (by norm_num)]; norm_num; ring
    rw [e] at hx
    exact hx
  have hr := roundEven_sub_le (x / (2 : ℚ) ^ quantum32 x)
  rw [abs_lt] at hdiv
  rw [abs_le] at hr
  have a : ((roundEven (x / (2 : ℚ) ^ quantum32 x) : Int) : ℚ) < ((16777216 + 1 : Int) : ℚ) := by
    push_cast; linarith [hr.2, hdiv.2]
  have b : ((-16777216 - 1 : Int) : ℚ) < ((roundEven (x / (2 : ℚ) ^ quantum32 x) : Int) : ℚ) := by
    push_cast; linarith [hr.1, hdiv.1]
  have a2 : roundEven (x / (2 : ℚ) ^ quantum32 x) < 16777216 + 1 := by exact_mod_cast a
  have b2 : -16777216 - 1 < roundEven (x / (2 : ℚ) ^ quantum32 x) := by exact_mod_cast b
  rw [abs_le]
  constructor <;> omega

/-- Subtracting 1 from a binary32 value between 1 and `2 ^ 24` is exact. -/
theorem round32_sub_one (x Q : ℚ) (h : round32 x = finite Q) (h1 : 1 ≤ Q)
    (h2 : Q < 16777216) : round32 (Q - 1) = finite (Q - 1) := by
  obtain ⟨N, hQ, hN⟩ := round32_mantissa x Q h
  have hqge := quantum32_ge x
  rw [abs_le] at hN
  by_cases hq : quantum32 x ≤ 0
  · obtain ⟨d, hd⟩ : ∃ d : ℕ, quantum32 x = -(d : ℤ) := ⟨(-quantum32 x).toNat, by omega⟩
    have hpow : (2 : ℚ) ^ quantum32 x * ((2 ^ d : Int) : ℚ) = 1 := by
      rw [hd, zpow_neg, zpow_natCast]
      push_cast
      field_simp
    have hp : (0 : ℚ) < (2 : ℚ) ^ quantum32 x := by positivity
    have hd1 : (1 : Int) ≤ 2 ^ d := one_le_pow₀ (by norm_num)
    have hNd : (2 ^ d : Int) ≤ N := by
      have : ((2 ^ d : Int) : ℚ) ≤ (N : ℚ) := by
        by_contra hc
        push_neg at hc
        have : (N : ℚ) * (2 : ℚ) ^ quantum32 x < ((2 ^ d : Int) : ℚ) * (2 : ℚ) ^ quantum32 x :=
          mul_lt_mul_of_pos_right hc hp
        rw [mul_comm ((2 ^ d : Int) : ℚ), hpow, ← hQ] at this
        linarith
      exact_mod_cast this
    apply round32_eq (Q - 1) (N - 2 ^ d) (quantum32 x)
    · push_cast
      have := hpow
      push_cast at this
      rw [sub_mul, ← hQ, mul_comm ((2 : ℚ) ^ d), this]
    · rw [abs_lt]; constructor <;> omega
    · exact hqge
    · omega
  · push_neg at hq
    obtain ⟨d, hd⟩ : ∃ d : ℕ, quantum32 x = (d : ℤ) := ⟨(quantum32 x).toNat, by omega⟩
    have hQ2 : Q = ((N * 2 ^ d : Int) : ℚ) := by
      rw [hQ, hd, zpow_natCast]; push_cast; ring
    have b1 : ((1 : Int) : ℚ) ≤ ((N * 2 ^ d : Int) : ℚ) := by rw [← hQ2]; simpa using h1
    have b2 : ((N * 2 ^ d : Int) : ℚ) < ((16777216 : Int) : ℚ) := by rw [← hQ2]; simpa using h2
    have c1 : (1 : Int) ≤ N * 2 ^ d := by exact_mod_cast b1
    have c2 : N * 2 ^ d < (16777216 : Int) := by exact_mod_cast b2
    apply round32_eq (Q - 1) (N * 2 ^ d - 1) 0
    · rw [hQ2]; push_cast; ring
    · rw [abs_lt]; constructor <;> omega
    · decide
    · decide

end Flt

/-! ## Auxiliary lemmas: the controller -/

theorem detect_obstacle_of_reads (r : Robot) (idx : Rays) (c l rt : Flt)
    (hidx : ray_indices r.scan_ = some idx)
    (hc : readAt r.scan_.ranges idx.center = some c)
    (hl : readAt r.scan_.ranges idx.left = some l)
    (hr : readAt r.scan_.ranges idx.right = some rt) :
    detect_obstacle r
      = some (blocked3 l c rt, { r with center_dist_ := c, left_dist_ := l, right_dist_ := rt }) := by
  unfold detect_obstacle
  simp only [hidx, hc, hl, hr, Option.bind_eq_bind, Option.some_bind, blocked3]
  by_cases h : (Flt.lt l (Flt.finite 0.8) || Flt.lt c (Flt.finite 0.8)
      || Flt.lt rt (Flt.finite 0.8)) = true
  · simp [h]
  · simp only [h]
    simp at h
    simp [h]

theorem detect_obstacle_some (r : Robot) (v : Bool) (r1 : Robot)
    (h : detect_obstacle r = some (v, r1)) :
    ∃ idx c l rt, ray_indices r.scan_ = some idx ∧
      readAt r.scan_.ranges idx.center = some c ∧
      readAt r.scan_.ranges idx.left = some l ∧
      readAt r.scan_.ranges idx.right = some rt ∧
      v = blocked3 l c rt ∧
      r1 = { r with center_dist_ := c, left_dist_ := l, right_dist_ := rt } := by
  cases hidx : ray_indices r.scan_ with
  | none => simp [detect_obstacle, hidx] at h
  | some idx =>
    cases hc : readAt r.scan_.ranges idx.center with
    | none => simp [detect_obstacle, hidx, hc] at h
    | some c =>
      cases hl : readAt r.scan_.ranges idx.left with
      | none => simp [detect_obstacle, hidx, hc, hl] at h
      | some l =>
        cases hr : readAt r.scan_.ranges idx.right with
        | none => simp [detect_obstacle, hidx, hc, hl, hr] at h
        | some rt =>
          have h2 := detect_obstacle_of_reads r idx c l rt hidx hc hl hr
          rw [h2] at h
          simp only [Option.some.injEq, Prod.mk.injEq] at h
          exact ⟨idx, c, l, rt, rfl, hc, hl, hr, h.1.symm, h.2.symm⟩
theorem trunc_intCast (n : Int) : Flt.trunc (n : ℚ) = n := by
  unfold Flt.trunc
  split <;> simp

theorem Flt.sub_finite (a b : ℚ) :
    Flt.sub (Flt.finite a) (Flt.finite b) = Flt.round32 (a - b) := rfl

theorem Flt.div_finite (a b : ℚ) (hb : b ≠ 0) :
    Flt.div (Flt.finite a) (Flt.finite b) = Flt.round32 (a / b) := by
  simp [Flt.div, hb]

theorem left_expr_exact (amax inc : ℚ) (k : Int) (hinc0 : inc ≠ 0)
    (hk : amax / inc - 25 = (k : ℚ)) (hk0 : 0 ≤ k) (hk1 : k + 25 < 2 ^ 24) :
    Flt.sub (Flt.div (Flt.finite amax) (Flt.finite inc)) (Flt.finite 25)
      = Flt.finite (k : ℚ) := by
  have e : amax / inc = ((k + 25 : Int) : ℚ) := by push_cast; linarith
  rw [Flt.div_finite _ _ hinc0, e,
    Flt.round32_intCast (k + 25) (by rw [abs_lt]; constructor <;> omega), Flt.sub_finite]
  have e2 : ((k + 25 : Int) : ℚ) - 25 = (k : ℚ) := by push_cast; ring
  rw [e2, Flt.round32_intCast k (by rw [abs_lt]; constructor <;> omega)]

theorem ray_indices_zero (s : SCAN) (L : ℚ)
    (hmin : s.angle_min = Flt.finite 0)
    (hL : Flt.sub (Flt.div s.angle_max s.angle_increment) (Flt.finite 25) = Flt.finite L)
    (hk0 : 0 ≤ Flt.trunc L)
    (hk1 : Flt.trunc L < 2 ^ 64) :
    ray_indices s = some { center := 0, left := Flt.trunc L, right := 25 } := by
  have hk1b : Flt.trunc L < 18446744073709551616 := by
    simpa using hk1
  have hne : Flt.ne (Flt.finite 0) (Flt.finite 0) = false := by simp [Flt.ne, Flt.eq]
  simp only [ray_indices, hmin, hne, hL]
  simp [Flt.toSize, intAdd, Flt.INT_MIN, Flt.INT_MAX, hk0, hk1b]

theorem zero_min_indices_of_left (s : SCAN) (amax inc : ℚ) (k : Int)
    (hmin : s.angle_min = Flt.finite 0)
    (hmax : s.angle_max = Flt.finite amax)
    (hinc : s.angle_increment = Flt.finite inc) (hinc0 : inc ≠ 0)
    (hk : amax / inc - 25 = (k : ℚ)) (hk0 : 0 ≤ k) (hk1 : k + 25 < 2 ^ 24) :
    ray_indices s = some { center := 0, left := k, right := 25 } := by
  have hL := left_expr_exact amax inc k hinc0 hk hk0 hk1
  rw [← hmax, ← hinc] at hL
  have ht : Flt.trunc (k : ℚ) = k := trunc_intCast k
  have := ray_indices_zero s (k : ℚ) hmin hL (by rw [ht]; exact hk0) (by rw [ht]; omega)
  rw [ht] at this
  exact this

theorem ray_indices_scan400 (sec : Int) (d : Flt) :
    ray_indices (scan400 sec d) = some { center := 0, left := 375, right := 25 } := by
  have h : (6.25 / 0.015625 - 25 : ℚ) = ((375 : Int) : ℚ) := by norm_num
  exact zero_min_indices_of_left (scan400 sec d) 6.25 0.015625 375 rfl rfl rfl (by norm_num) h
    (by decide) (by decide)

theorem detect_obstacle_scan400 (r : Robot) (sec : Int) (d : Flt) :
    detect_obstacle (scan_callback r (scan400 sec d))
      = some (blocked3 d d d, { scan_callback r (scan400 sec d) with
          center_dist_ := d, left_dist_ := d, right_dist_ := d }) := by
  have hr : (scan_callback r (scan400 sec d)).scan_.ranges = List.replicate 400 d := rfl
  apply detect_obstacle_of_reads _ _ _ _ _ (ray_indices_scan400 sec d) <;>
    simp only [readAt, hr, List.getElem?_replicate] <;> simp

theorem blocked3_one : blocked3 (Flt.finite 1) (Flt.finite 1) (Flt.finite 1) = false := by
  simp [blocked3, Flt.lt]
  norm_num

theorem detect_obstacle_robot400 (sec : Int) (d : Flt) :
    detect_obstacle (robot400 sec d)
      = some (blocked3 d d d, { robot400 sec d with
          center_dist_ := d, left_dist_ := d, right_dist_ := d }) :=
  detect_obstacle_scan400 Robot.Robot sec d

theorem detect_obstacle_state (r r1 : Robot) (v : Bool)
    (h : detect_obstacle r = some (v, r1)) : r1.state_ = r.state_ ∧ r1.scan_ = r.scan_ := by
  obtain ⟨idx, c, l, rt, -, -, -, -, -, h1⟩ := detect_obstacle_some r v r1 h
  subst h1
  exact ⟨rfl, rfl⟩

theorem readAt_robot400 (sec : Int) (d : Flt) (i : Int) (h0 : 0 ≤ i) (h1 : i < 400) :
    readAt (robot400 sec d).scan_.ranges i = some d := by
  have hr : (robot400 sec d).scan_.ranges = List.replicate 400 d := rfl
  simp only [readAt, hr, List.getElem?_replicate, h0, if_true]
  have : i.toNat < 400 := by omega
  simp [this]

theorem Flt.lt_finite (a b : ℚ) : Flt.lt (Flt.finite a) (Flt.finite b) = true ↔ a < b := by
  simp [Flt.lt]

theorem blocked3_iff (l c rt : Flt) :
    blocked3 l c rt = true ↔
      (Flt.lt l (Flt.finite 0.8) = true ∨ Flt.lt c (Flt.finite 0.8) = true
        ∨ Flt.lt rt (Flt.finite 0.8) = true) := by
  simp [blocked3, or_assoc]

theorem readAt_scanP5 (i : Nat) (h : i < 200) :
    readAt scanP5.ranges (i : Int) = some (Flt.finite (i : ℚ)) := by
  have hr : scanP5.ranges = (List.range 200).map (fun (i : Nat) => Flt.finite (i : ℚ)) := rfl
  simp only [readAt, hr]
  simp [h]

theorem trunc_of_nonneg (q : ℚ) (h : 0 ≤ q) : Flt.trunc q = ⌊q⌋ := by
  simp [Flt.trunc, h]

theorem trunc_eq_of_bounds (q : ℚ) (n : Int) (h0 : 0 ≤ q) (h1 : (n : ℚ) ≤ q)
    (h2 : q < n + 1) : Flt.trunc q = n := by
  rw [trunc_of_nonneg q h0, Int.floor_eq_iff]
  exact ⟨h1, h2⟩

theorem trunc_sub_one (q : ℚ) (h : 1 ≤ q) : Flt.trunc (q - 1) = ⌊q⌋ - 1 := by
  rw [trunc_of_nonneg (q - 1) (by linarith), Int.floor_sub_one]

theorem round_of_fract_lt (q : ℚ) (h : Int.fract q < 1 / 2) : round q = ⌊q⌋ := by
  rw [round_eq, Int.floor_eq_iff]
  have h1 := Int.fract_nonneg q
  have h2 : q = ⌊q⌋ + Int.fract q := (Int.floor_add_fract q).symm
  constructor <;> linarith

theorem round_of_le_fract (q : ℚ) (h : 1 / 2 ≤ Int.fract q) : round q = ⌊q⌋ + 1 := by
  rw [round_eq, Int.floor_eq_iff]
  have h1 := Int.fract_lt_one q
  have h2 : q = ⌊q⌋ + Int.fract q := (Int.floor_add_fract q).symm
  push_cast
  constructor <;> linarith

theorem ray_indices_nonzero (s : SCAN) (amin X : ℚ)
    (hmin : s.angle_min = Flt.finite amin) (hne : amin ≠ 0)
    (hX : Flt.sub (Flt.div (Flt.sub s.angle_max s.angle_min) s.angle_increment) (Flt.finite 1)
      = Flt.finite X)
    (hlo : Flt.INT_MIN ≤ Flt.trunc X - 25)
    (hhi : Flt.trunc X + 25 ≤ Flt.INT_MAX) :
    ray_indices s = some
      { center := Flt.trunc X
        left := Flt.trunc X - 25
        right := Flt.trunc X + 25 } := by
  have h1 : Flt.INT_MIN ≤ Flt.trunc X := by linarith
  have h2 : Flt.trunc X ≤ Flt.INT_MAX := by linarith
  have h3 : Flt.trunc X - 25 ≤ Flt.INT_MAX := by linarith
  have h4 : Flt.INT_MIN ≤ Flt.trunc X + 25 := by linarith
  have h5 : Flt.trunc X ≤ Flt.INT_MAX + 25 := by linarith
  have hn : Flt.ne s.angle_min (Flt.finite 0) = true := by simp [hmin, Flt.ne, Flt.eq, hne]
  simp only [ray_indices, hn, hX]
  simp [Flt.toInt, intAdd, intSub, h1, h2, h3, h4, h5, hlo, hhi]

theorem ray_indices_scanAsym :
    ray_indices scanAsym = some { center := 98, left := 73, right := 123 } := by
  have ht : Flt.trunc (98.75 : ℚ) = 98 :=
    trunc_eq_of_bounds _ 98 (by norm_num) (by norm_num) (by norm_num)
  have e1 : Flt.sub (Flt.finite 100) (Flt.finite 0.25) = Flt.finite 99.75 := by
    rw [Flt.sub_finite]
    have h : (100 - 0.25 : ℚ) = 99.75 := by norm_num
    rw [h]
    exact Flt.round32_eq 99.75 399 (-2) (by norm_num) (by decide) (by decide) (by decide)
  have e2 : Flt.div (Flt.finite 99.75) (Flt.finite 1) = Flt.finite 99.75 := by
    rw [Flt.div_finite _ _ (by norm_num)]
    have h : (99.75 / 1 : ℚ) = 99.75 := by norm_num
    rw [h]
    exact Flt.round32_eq 99.75 399 (-2) (by norm_num) (by decide) (by decide) (by decide)
  have e3 : Flt.sub (Flt.finite 99.75) (Flt.finite 1) = Flt.finite 98.75 := by
    rw [Flt.sub_finite]
    have h : (99.75 - 1 : ℚ) = 98.75 := by norm_num
    rw [h]
    exact Flt.round32_eq 98.75 395 (-2) (by norm_num) (by decide) (by decide) (by decide)
  have hX : Flt.sub (Flt.div (Flt.sub scanAsym.angle_max scanAsym.angle_min)
      scanAsym.angle_increment) (Flt.finite 1) = Flt.finite 98.75 := by
    show Flt.sub (Flt.div (Flt.sub (Flt.finite 100) (Flt.finite 0.25)) (Flt.finite 1))
      (Flt.finite 1) = Flt.finite 98.75
    rw [e1, e2, e3]
  have h := ray_indices_nonzero scanAsym 0.25 98.75 rfl (by norm_num) hX
    (by rw [ht]; decide) (by rw [ht]; decide)
  rw [ht] at h
  exact h

theorem readAt_scanAsym (i : Nat) (h : i < 200) :
    readAt scanAsym.ranges (i : Int) = some (Flt.finite (i : ℚ)) := by
  have hr : scanAsym.ranges = (List.range 200).map (fun (i : Nat) => Flt.finite (i : ℚ)) := rfl
  simp only [readAt, hr]
  simp [h]

theorem detect_obstacle_none_of_read (r : Robot) (idx : Rays)
    (hidx : ray_indices r.scan_ = some idx)
    (h : readAt r.scan_.ranges idx.center = none ∨ readAt r.scan_.ranges idx.left = none
      ∨ readAt r.scan_.ranges idx.right = none) :
    detect_obstacle r = none := by
  cases hd : detect_obstacle r with
  | none => rfl
  | some p =>
    obtain ⟨v, r1⟩ := p
    obtain ⟨idx2, c, l, rt, h1, hc, hl, hr, -, -⟩ := detect_obstacle_some r v r1 hd
    rw [hidx] at h1
    cases h1
    rcases h with h | h | h
    · rw [h] at hc; cases hc
    · rw [h] at hl; cases hl
    · rw [h] at hr; cases hr

theorem readAt_isSome (ranges : List Flt) (i : Int) (h : validIndex ranges i) :
    ∃ d, readAt ranges i = some d := by
  obtain ⟨h0, h1⟩ := h
  have h2 : i.toNat < ranges.length := by omega
  exact ⟨ranges[i.toNat], by simp [readAt, h0, List.getElem?_eq_getElem h2]⟩

theorem ray_indices_scanShort :
    ray_indices scanShort = some { center := 0, left := 0, right := 25 } := by
  have h : (3.125 / 0.125 - 25 : ℚ) = ((0 : Int) : ℚ) := by norm_num
  exact zero_min_indices_of_left scanShort 3.125 0.125 0 rfl rfl rfl (by norm_num) h
    (by decide) (by decide)

theorem center_expr_exact (amin amax inc : ℚ) (a b c : Int) (hinc0 : inc ≠ 0)
    (ha : amax - amin = (a : ℚ)) (hb : (a : ℚ) / inc = (b : ℚ)) (hc : b - 1 = c)
    (ha1 : |a| < 2 ^ 24) (hb1 : |b| < 2 ^ 24) (hc1 : |c| < 2 ^ 24) :
    Flt.sub (Flt.div (Flt.sub (Flt.finite amax) (Flt.finite amin)) (Flt.finite inc))
      (Flt.finite 1) = Flt.finite (c : ℚ) := by
  rw [Flt.sub_finite, ha, Flt.round32_intCast a ha1, Flt.div_finite _ _ hinc0, hb,
    Flt.round32_intCast b hb1, Flt.sub_finite]
  have e : (b : ℚ) - 1 = (c : ℚ) := by rw [← hc]; push_cast; ring
  rw [e, Flt.round32_intCast c hc1]

theorem center_expr_scanSym :
    Flt.sub (Flt.div (Flt.sub scanSym.angle_max scanSym.angle_min) scanSym.angle_increment)
      (Flt.finite 1) = Flt.finite 191 := by
  have h := center_expr_exact (-1.5) 1.5 0.015625 3 192 191 (by norm_num) (by norm_num)
    (by norm_num) (by decide) (by decide) (by decide) (by decide)
  simpa using h

theorem ray_indices_scanSym :
    ray_indices scanSym = some { center := 191, left := 166, right := 216 } := by
  have ht : Flt.trunc (191 : ℚ) = 191 := by exact_mod_cast trunc_intCast 191
  have := ray_indices_nonzero scanSym (-1.5) 191 rfl (by norm_num) center_expr_scanSym
    (by rw [ht]; decide) (by rw [ht]; decide)
  rw [ht] at this
  exact this

theorem wellFormed_scanShort : wellFormed scanShort = true := by
  have h1 : scanShort.angle_min = Flt.finite 0 := rfl
  have h2 : scanShort.angle_max = Flt.finite 3.125 := rfl
  have h3 : scanShort.angle_increment = Flt.finite 0.125 := rfl
  have h4 : scanShort.ranges.length = 25 := rfl
  have hr : round ((3.125 - 0) / 0.125 : ℚ) = 25 := by
    have e : ((3.125 - 0) / 0.125 : ℚ) = ((25 : Int) : ℚ) := by norm_num
    rw [e, round_intCast]
  simp only [wellFormed, h1, h2, h3, h4, hr]
  norm_num

theorem wellFormed_scanSym : wellFormed scanSym = true := by
  have h1 : scanSym.angle_min = Flt.finite (-1.5) := rfl
  have h2 : scanSym.angle_max = Flt.finite 1.5 := rfl
  have h3 : scanSym.angle_increment = Flt.finite 0.015625 := rfl
  have h4 : scanSym.ranges.length = 193 := rfl
  have hr : round ((1.5 - (-1.5)) / 0.015625 : ℚ) = 192 := by
    have e : ((1.5 - (-1.5)) / 0.015625 : ℚ) = ((192 : Int) : ℚ) := by norm_num
    rw [e, round_intCast]
  simp only [wellFormed, h1, h2, h3, h4, hr]
  norm_num

theorem wellFormed_zero_min (s : SCAN) (hwf : wellFormed s = true)
    (hmin : s.angle_min = Flt.finite 0) :
    ∃ amax inc : ℚ, s.angle_max = Flt.finite amax ∧ s.angle_increment = Flt.finite inc
      ∧ 0 < inc
      ∧ ((s.ranges.length : Int) = round (amax / inc)
        ∨ (s.ranges.length : Int) = round (amax / inc) + 1) := by
  cases hmax : s.angle_max with
  | finite amax =>
    cases hinc : s.angle_increment with
    | finite inc =>
      simp only [wellFormed, hmin, hmax, hinc, sub_zero, Bool.and_eq_true, Bool.or_eq_true,
        decide_eq_true_eq] at hwf
      exact ⟨amax, inc, rfl, rfl, hwf.1, hwf.2⟩
    | posInf => simp [wellFormed, hmin, hmax, hinc] at hwf
    | negInf => simp [wellFormed, hmin, hmax, hinc] at hwf
    | nan => simp [wellFormed, hmin, hmax, hinc] at hwf
  | posInf => simp [wellFormed, hmin, hmax] at hwf
  | negInf => simp [wellFormed, hmin, hmax] at hwf
  | nan => simp [wellFormed, hmin, hmax] at hwf

theorem length_scan400 (sec : Int) (d : Flt) : (scan400 sec d).ranges.length = 400 :=
  List.length_replicate 400 d

theorem detect_obstacle_verdict (r : Robot) :
    (detect_obstacle r).map Prod.fst = verdict r.scan_ := by
  have hs : (scan_callback Robot.Robot r.scan_).scan_ = r.scan_ := rfl
  cases hidx : ray_indices r.scan_ with
  | none => simp [verdict, detect_obstacle, hs, hidx]
  | some idx =>
    cases hc : readAt r.scan_.ranges idx.center with
    | none => simp [verdict, detect_obstacle, hs, hidx, hc]
    | some c =>
      cases hl : readAt r.scan_.ranges idx.left with
      | none => simp [verdict, detect_obstacle, hs, hidx, hc, hl]
      | some l =>
        cases hr : readAt r.scan_.ranges idx.right with
        | none => simp [verdict, detect_obstacle, hs, hidx, hc, hl, hr]
        | some rt =>
          rw [verdict, detect_obstacle_of_reads r idx c l rt hidx hc hl hr,
            detect_obstacle_of_reads (scan_callback Robot.Robot r.scan_) idx c l rt
              (by rw [hs]; exact hidx) (by rw [hs]; exact hc) (by rw [hs]; exact hl)
              (by rw [hs]; exact hr)]
          rfl

theorem detect_obstacle_of_verdict (r : Robot) (v : Bool) (h : verdict r.scan_ = some v) :
    ∃ r1, detect_obstacle r = some (v, r1) ∧ r1.state_ = r.state_ := by
  rw [← detect_obstacle_verdict] at h
  cases hd : detect_obstacle r with
  | none => simp [hd] at h
  | some p =>
    obtain ⟨v1, r1⟩ := p
    simp [hd] at h
    subst h
    exact ⟨r1, rfl, (detect_obstacle_state r r1 v1 hd).1⟩

theorem timer_callback_idle (r : Robot) (v : Bool)
    (hst : (r.state_ = FORWARD ∧ v = false) ∨ (r.state_ = TURN ∧ v = true))
    (hv : verdict r.scan_ = some v) :
    ∃ r1, timer_callback r = some (r1, []) ∧ r1.state_ = r.state_ := by
  by_cases hsec : r.scan_.header.stamp.sec = 0
  · exact ⟨r, by simp [timer_callback, hsec], rfl⟩
  · obtain ⟨r1, hd, hs⟩ := detect_obstacle_of_verdict r v hv
    refine ⟨r1, ?_, hs⟩
    rcases hst with ⟨h1, h2⟩ | ⟨h1, h2⟩ <;> subst h2 <;> simp [timer_callback, hsec, h1, hd]

theorem verdict_scan400 (sec : Int) (d : Flt) :
    verdict (scan400 sec d) = some (blocked3 d d d) := by
  rw [verdict, detect_obstacle_scan400]
  rfl

theorem blocked3_half :
    blocked3 (Flt.finite 0.5) (Flt.finite 0.5) (Flt.finite 0.5) = true := by
  simp [blocked3, Flt.lt]
  norm_num

theorem ray_indices_scanNegInc :
    ray_indices scanNegInc = some { center := 0, left := 25, right := 25 } := by
  have h : ((-50) / (-1) - 25 : ℚ) = ((25 : Int) : ℚ) := by norm_num
  exact zero_min_indices_of_left scanNegInc (-50) (-1) 25 rfl rfl rfl (by norm_num) h
    (by decide) (by decide)

theorem ray_indices_scanMiscount :
    ray_indices scanMiscount = some { center := 0, left := 375, right := 25 } := by
  have h : (6.25 / 0.015625 - 25 : ℚ) = ((375 : Int) : ℚ) := by norm_num
  exact zero_min_indices_of_left scanMiscount 6.25 0.015625 375 rfl rfl rfl (by norm_num) h
    (by decide) (by decide)

theorem readAt_replicate (n : Nat) (d : Flt) (i : Int) (h0 : 0 ≤ i) (h1 : i < n) :
    readAt (List.replicate n d) i = some d := by
  simp only [readAt, List.getElem?_replicate, h0, if_true]
  have : i.toNat < n := by omega
  simp [this]

theorem wellFormed_scanNegInc : wellFormed scanNegInc = false := by
  have h1 : scanNegInc.angle_min = Flt.finite 0 := rfl
  have h2 : scanNegInc.angle_max = Flt.finite (-50) := rfl
  have h3 : scanNegInc.angle_increment = Flt.finite (-1) := rfl
  have hn : ¬ ((0 : ℚ) < -1) := by norm_num
  simp only [wellFormed, h1, h2, h3, hn, decide_False, Bool.false_and]

theorem wellFormed_scanMiscount : wellFormed scanMiscount = false := by
  have h1 : scanMiscount.angle_min = Flt.finite 0 := rfl
  have h2 : scanMiscount.angle_max = Flt.finite 6.25 := rfl
  have h3 : scanMiscount.angle_increment = Flt.finite 0.015625 := rfl
  have h4 : scanMiscount.ranges.length = 500 := List.length_replicate 500 _
  have hr : round ((6.25 - 0) / 0.015625 : ℚ) = 400 := by
    have e : ((6.25 - 0) / 0.015625 : ℚ) = ((400 : Int) : ℚ) := by norm_num
    rw [e, round_intCast]
  simp only [wellFormed, h1, h2, h3, h4, hr]
  norm_num

theorem lt_sentinel (x y : Flt) (h : isSentinel x = true) : Flt.lt x y = false := by
  cases x <;> simp [isSentinel] at h <;> cases y <;> rfl

theorem ray_indices_scanOpenAhead :
    ray_indices scanOpenAhead = some { center := 0, left := 375, right := 25 } := by
  have h : (6.25 / 0.015625 - 25 : ℚ) = ((375 : Int) : ℚ) := by norm_num
  exact zero_min_indices_of_left scanOpenAhead 6.25 0.015625 375 rfl rfl rfl (by norm_num) h
    (by decide) (by decide)

theorem readAt_scanOpenAhead (i : Nat) (h : i < 400) :
    readAt scanOpenAhead.ranges (i : Int)
      = some (if i = 0 then Flt.posInf else Flt.finite 1) := by
  have hr : scanOpenAhead.ranges
      = (List.range 400).map (fun (i : Nat) => if i = 0 then Flt.posInf else Flt.finite 1) := rfl
  simp only [readAt, hr]
  simp [h]

theorem detect_obstacle_scanOpenAhead :
    detect_obstacle (scan_callback Robot.Robot scanOpenAhead) = some (false,
        { scan_callback Robot.Robot scanOpenAhead with
          center_dist_ := Flt.posInf
          left_dist_ := Flt.finite 1
          right_dist_ := Flt.finite 1 }) := by
  have hb : blocked3 (Flt.finite 1) Flt.posInf (Flt.finite 1) = false := by
    simp [blocked3, Flt.lt]
    norm_num
  rw [← hb]
  have e0 := readAt_scanOpenAhead 0 (by decide)
  have e375 := readAt_scanOpenAhead 375 (by decide)
  have e25 := readAt_scanOpenAhead 25 (by decide)
  exact detect_obstacle_of_reads (scan_callback Robot.Robot scanOpenAhead) _ _ _ _
    ray_indices_scanOpenAhead e0 e375 e25

theorem timer_callback_step (r r1 : Robot) (v : Bool)
    (hsec : r.scan_.header.stamp.sec ≠ 0)
    (hv : detect_obstacle r = some (v, r1)) :
    timer_callback r
      = some ({ r1 with state_ := (specTable r.state_ v).1 }, (specTable r.state_ v).2) := by
  have hs := (detect_obstacle_state r r1 v hv).1
  cases hst : r.state_ <;> cases v <;>
    simp [timer_callback, hsec, hst, hv, specTable, stopCmd, spinCmd, forwardCmd, TWIST.init]
  all_goals first | (cases r1; simp_all; done) | norm_num

theorem timer_callback_guard (r : Robot) (hsec : r.scan_.header.stamp.sec = 0) :
    timer_callback r = some (r, []) := by
  simp [timer_callback, hsec]

theorem deliver_append (r : Robot) (ss : List SCAN) (sn : SCAN) :
    deliver r (ss ++ [sn]) = ({ r with scan_ := sn }, []) := by
  induction ss generalizing r with
  | nil => rfl
  | cons s rest ih =>
    show deliver (scan_callback r s) (rest ++ [sn]) = _
    rw [ih]
    rfl

theorem specTable_forward_iff (st : StateType) (v : Bool) :
    (specTable st v).1 = FORWARD ↔ v = false := by
  cases st <;> cases v <;> simp [specTable]

theorem specTable_positive (st : StateType) (v : Bool) (m : TWIST)
    (hm : m ∈ (specTable st v).2)
    (hp : Flt.lt (Flt.finite 0) m.linear.x = true ∨ Flt.lt (Flt.finite 0) m.linear.y = true
      ∨ Flt.lt (Flt.finite 0) m.linear.z = true) : v = false := by
  cases st <;> cases v <;> simp [specTable] at hm ⊢ <;> subst hm <;>
    simp [stopCmd, spinCmd, Flt.lt] at hp

theorem specTable_emits_iff (st : StateType) (v : Bool) :
    ((specTable st v).2 ≠ [] ↔ (specTable st v).1 ≠ st)
      ∧ ((specTable st v).2 = [] ∨ (specTable st v).2 = [commandFor (specTable st v).1]) := by
  cases st <;> cases v <;> simp [specTable, commandFor]

theorem timer_callback_classified (r : Robot) (s : SCAN) (v : Bool) (h : classified s v) :
    ∃ r2 out, timer_callback (scan_callback r s) = some (r2, out)
      ∧ r2.state_ = (specTable r.state_ v).1 := by
  obtain ⟨hsec, hv⟩ := h
  obtain ⟨r1, hd, -⟩ := detect_obstacle_of_verdict (scan_callback r s) v hv
  exact ⟨_, _, timer_callback_step (scan_callback r s) r1 v hsec hd, rfl⟩

theorem run_classified (r : Robot) (samples : List SCAN) (v : Bool)
    (hv : ∀ s ∈ samples, classified s v) :
    ∃ r2 out, run r samples = some (r2, out)
      ∧ r2.state_ = samples.foldl (fun st _ => (specTable st v).1) r.state_ := by
  induction samples generalizing r with
  | nil => exact ⟨r, [], rfl, rfl⟩
  | cons s rest ih =>
    obtain ⟨r1, out1, h1, e1⟩ := timer_callback_classified r s v
      (hv s (List.mem_cons_self s rest))
    obtain ⟨r2, out2, h2, e2⟩ := ih r1 (fun t ht => hv t (List.mem_cons_of_mem s ht))
    refine ⟨r2, out1 ++ out2, by simp [run, h1, h2], ?_⟩
    rw [e2, e1]
    rfl

theorem foldl_settled (samples : List SCAN) (v : Bool) :
    samples.foldl (fun st _ => (specTable st v).1) (if v then TURN else FORWARD)
      = (if v then TURN else FORWARD) := by
  induction samples with
  | nil => rfl
  | cons s rest ih =>
    cases v
    · simpa [specTable] using ih
    · simpa [specTable] using ih

theorem foldl_settles (samples : List SCAN) (v : Bool) (st : StateType)
    (hn : (if v then 2 else 1) ≤ samples.length) :
    samples.foldl (fun st _ => (specTable st v).1) st = (if v then TURN else FORWARD) := by
  cases v
  · cases samples with
    | nil => simp at hn
    | cons a rest =>
      have h := foldl_settled rest false
      cases st <;> simpa [specTable] using h
  · cases samples with
    | nil => simp at hn
    | cons a rest =>
      cases rest with
      | nil => simp at hn
      | cons b rest2 =>
        have h := foldl_settled rest2 true
        cases st <;> simpa [specTable] using h

theorem ray_indices_congr (s t : SCAN) (hmin : s.angle_min = t.angle_min)
    (hmax : s.angle_max = t.angle_max) (hinc : s.angle_increment = t.angle_increment) :
    ray_indices s = ray_indices t := by
  simp only [ray_indices, hmin, hmax, hinc]

theorem ray_indices_scanCluttered :
    ray_indices scanCluttered = some { center := 0, left := 375, right := 25 } := by
  have h : (6.25 / 0.015625 - 25 : ℚ) = ((375 : Int) : ℚ) := by norm_num
  exact zero_min_indices_of_left scanCluttered 6.25 0.015625 375 rfl rfl rfl (by norm_num) h
    (by decide) (by decide)

theorem readAt_scanCluttered (i : Nat) (h : i < 400) :
    readAt scanCluttered.ranges (i : Int)
      = some (if i = 0 ∨ i = 25 ∨ i = 375 then Flt.finite 1 else Flt.finite 0.1) := by
  have hr : scanCluttered.ranges = (List.range 400).map
      (fun (i : Nat) => if i = 0 ∨ i = 25 ∨ i = 375 then Flt.finite 1 else Flt.finite 0.1) := rfl
  simp only [readAt, hr]
  simp [h]

theorem trunc_gt (x : ℚ) : x - 1 < (Flt.trunc x : ℚ) := by
  unfold Flt.trunc
  split
  · exact Int.sub_one_lt_floor x
  · have := Int.le_ceil x
    linarith

theorem trunc_nonneg_of_gt (x : ℚ) (h : -1 < x) : 0 ≤ Flt.trunc x := by
  unfold Flt.trunc
  split
  · exact Int.floor_nonneg.mpr (by assumption)
  · have h1 := Int.le_ceil x
    have h2 : ((-1 : Int) : ℚ) < ((⌈x⌉ : Int) : ℚ) := by push_cast; linarith
    have h3 : (-1 : Int) < ⌈x⌉ := by exact_mod_cast h2
    omega

theorem trunc_lt_of_lt (x : ℚ) (n : Int) (hn : 0 < n) (h : x < (n : ℚ)) : Flt.trunc x < n := by
  unfold Flt.trunc
  split
  · exact Int.floor_lt.mpr h
  · rename_i hx
    push_neg at hx
    have : ⌈x⌉ ≤ 0 := Int.ceil_le.mpr (by simpa using le_of_lt hx)
    omega

theorem round32_small (x : ℚ) (h1 : -1000000000 ≤ x) (h2 : x ≤ 1000000000) :
    Flt.round32 x = Flt.finite (Flt.rounded x) := by
  apply Flt.round32_isFinite
  rw [abs_le]
  have e : (1000000000 : ℚ) ≤ (2 : ℚ) ^ 127 := by norm_num
  constructor <;> linarith

theorem zero_left_bounds (amax inc : ℚ) (n : Nat) (hpos : 0 < inc)
    (hq1 : (n : ℚ) - 3 / 2 ≤ amax / inc) (hq2 : amax / inc ≤ (n : ℚ) + 1 / 2)
    (hn1 : 26 ≤ n) (hn2 : n ≤ 100000000) :
    ∃ L : ℚ, Flt.sub (Flt.div (Flt.finite amax) (Flt.finite inc)) (Flt.finite 25) = Flt.finite L
      ∧ 0 ≤ Flt.trunc L ∧ Flt.trunc L < (n : Int) := by
  have hn1q : (26 : ℚ) ≤ (n : ℚ) := by exact_mod_cast hn1
  have hn2q : (n : ℚ) ≤ 100000000 := by exact_mod_cast hn2
  have hd0 : (0 : ℚ) < (2 : ℚ) ^ (-150 : ℤ) := by positivity
  have hd1 : (2 : ℚ) ^ (-150 : ℤ) ≤ 1 / 1000 := by norm_num
  have hQ := round32_small (amax / inc) (by linarith) (by linarith)
  obtain ⟨bq1, bq2⟩ := Flt.round32_bounds_nonneg _ _ hQ (by linarith)
  have hLf := round32_small (Flt.rounded (amax / inc) - 25) (by linarith) (by linarith)
  refine ⟨Flt.rounded (Flt.rounded (amax / inc) - 25), ?_, ?_, ?_⟩
  · rw [Flt.div_finite _ _ (ne_of_gt hpos), hQ, Flt.sub_finite, hLf]
  · apply trunc_nonneg_of_gt
    rcases le_or_lt 0 (Flt.rounded (amax / inc) - 25) with hu | hu
    · have := (Flt.round32_bounds_nonneg _ _ hLf hu).1
      linarith
    · have := (Flt.round32_bounds_nonpos _ _ hLf (le_of_lt hu)).1
      linarith
  · apply trunc_lt_of_lt _ _ (by omega)
    rcases le_or_lt 0 (Flt.rounded (amax / inc) - 25) with hu | hu
    · have := (Flt.round32_bounds_nonneg _ _ hLf hu).2
      push_cast
      linarith
    · have := (Flt.round32_bounds_nonpos _ _ hLf (le_of_lt hu)).2
      push_cast
      linarith

theorem Flt.round32_tenth : Flt.round32 0.1 = Flt.finite (13421773 / 134217728) := by
  have hq : Flt.quantum32 0.1 = -27 := by
    apply Flt.quantum32_eq _ _ (by decide)
    · rw [abs_of_pos (by norm_num)]; norm_num
    · rw [abs_of_pos (by norm_num)]; norm_num
  have h := Flt.round32_near 0.1 (-27) 13421773 hq (by norm_num) (by norm_num)
    (by rw [abs_of_pos (by norm_num)]; norm_num)
  rw [h]
  norm_num

theorem left_expr_scanP5 :
    Flt.sub (Flt.div scanP5.angle_max scanP5.angle_increment) (Flt.finite 25)
      = Flt.finite 175 := by
  have e1 : Flt.div scanP5.angle_max scanP5.angle_increment = Flt.finite 200 := by
    show Flt.div (Flt.finite 2.0) (Flt.round32 0.01) = Flt.finite 200
    rw [Flt.round32_hundredth, Flt.div_finite _ _ (by norm_num)]
    have hq : Flt.quantum32 (2.0 / (5368709 / 536870912)) = -16 := by
      apply Flt.quantum32_eq _ _ (by decide)
      · rw [abs_of_pos (by norm_num)]; norm_num
      · rw [abs_of_pos (by norm_num)]; norm_num
    have h := Flt.round32_near (2.0 / (5368709 / 536870912)) (-16) 13107200 hq (by norm_num)
      (by norm_num) (by rw [abs_of_pos (by norm_num)]; norm_num)
    rw [h]
    norm_num
  rw [e1, Flt.sub_finite]
  have e2 : (200 - 25 : ℚ) = ((175 : Int) : ℚ) := by norm_num
  rw [e2, Flt.round32_intCast 175 (by decide)]
  norm_num

theorem left_expr_scanTenth :
    Flt.sub (Flt.div scanTenth.angle_max scanTenth.angle_increment) (Flt.finite 25)
      = Flt.finite 175 := by
  have e1 : Flt.div scanTenth.angle_max scanTenth.angle_increment = Flt.finite 200 := by
    show Flt.div (Flt.finite 20) (Flt.round32 0.1) = Flt.finite 200
    rw [Flt.round32_tenth, Flt.div_finite _ _ (by norm_num)]
    have hq : Flt.quantum32 (20 / (13421773 / 134217728)) = -16 := by
      apply Flt.quantum32_eq _ _ (by decide)
      · rw [abs_of_pos (by norm_num)]; norm_num
      · rw [abs_of_pos (by norm_num)]; norm_num
    have h := Flt.round32_near (20 / (13421773 / 134217728)) (-16) 13107200 hq (by norm_num)
      (by norm_num) (by rw [abs_of_pos (by norm_num)]; norm_num)
    rw [h]
    norm_num
  rw [e1, Flt.sub_finite]
  have e2 : (200 - 25 : ℚ) = ((175 : Int) : ℚ) := by norm_num
  rw [e2, Flt.round32_intCast 175 (by decide)]
  norm_num

theorem trunc_175 : Flt.trunc (175 : ℚ) = 175 := by exact_mod_cast trunc_intCast 175

theorem ray_indices_scanP5 :
    ray_indices scanP5 = some { center := 0, left := 175, right := 25 } := by
  have := ray_indices_zero scanP5 175 rfl left_expr_scanP5 (by rw [trunc_175]; decide)
    (by rw [trunc_175]; decide)
  rw [trunc_175] at this
  exact this

theorem ray_indices_scanTenth :
    ray_indices scanTenth = some { center := 0, left := 175, right := 25 } := by
  have := ray_indices_zero scanTenth 175 rfl left_expr_scanTenth (by rw [trunc_175]; decide)
    (by rw [trunc_175]; decide)
  rw [trunc_175] at this
  exact this

theorem exact_left_scanTenth :
    Flt.trunc ((20 : ℚ) / (13421773 / 134217728) - 25) = 174 :=
  trunc_eq_of_bounds _ 174 (by norm_num) (by norm_num) (by norm_num)

theorem readAt_scanTenth (i : Nat) (h : i < 200) :
    readAt scanTenth.ranges (i : Int) = some (Flt.finite (i : ℚ)) := by
  have hr : scanTenth.ranges = (List.range 200).map (fun (i : Nat) => Flt.finite (i : ℚ)) := rfl
  simp only [readAt, hr]
  simp [h]

theorem div_sub_finite (a b inc Q : ℚ) (hinc0 : inc ≠ 0)
    (h : Flt.div (Flt.sub (Flt.finite a) (Flt.finite b)) (Flt.finite inc) = Flt.finite Q) :
    ∃ sv : ℚ, Flt.round32 (a - b) = Flt.finite sv ∧ Flt.round32 (sv / inc) = Flt.finite Q := by
  rw [Flt.sub_finite] at h
  cases hs : Flt.round32 (a - b) with
  | finite sv =>
    rw [hs, Flt.div_finite _ _ hinc0] at h
    exact ⟨sv, rfl, h⟩
  | posInf => rw [hs] at h; simp [Flt.div] at h; split at h <;> cases h
  | negInf => rw [hs] at h; simp [Flt.div] at h; split at h <;> cases h
  | nan => rw [hs] at h; simp [Flt.div] at h

theorem sub_one_finite (D X : Flt) (hX : Flt.sub D (Flt.finite 1) = X) (x : ℚ)
    (hx : X = Flt.finite x) : ∃ Q : ℚ, D = Flt.finite Q ∧ Flt.round32 (Q - 1) = Flt.finite x := by
  subst hx
  cases D with
  | finite Q => exact ⟨Q, rfl, hX⟩
  | posInf => simp [Flt.sub] at hX
  | negInf => simp [Flt.sub] at hX
  | nan => simp [Flt.sub] at hX

theorem Flt.round32_twentieth : Flt.round32 0.05 = Flt.finite (13421773 / 268435456) := by
  have hq : Flt.quantum32 0.05 = -28 := by
    apply Flt.quantum32_eq _ _ (by decide)
    · rw [abs_of_pos (by norm_num)]; norm_num
    · rw [abs_of_pos (by norm_num)]; norm_num
  have h := Flt.round32_near 0.05 (-28) 13421773 hq (by norm_num) (by norm_num)
    (by rw [abs_of_pos (by norm_num)]; norm_num)
  rw [h]
  norm_num

theorem quotient_scanTwentieth :
    Flt.div (Flt.sub (Flt.finite 1.5) (Flt.finite (-1.5))) (Flt.finite (13421773 / 268435456))
      = Flt.finite 60 := by
  have e1 : Flt.sub (Flt.finite 1.5) (Flt.finite (-1.5)) = Flt.finite 3 := by
    rw [Flt.sub_finite]
    have h : (1.5 - (-1.5) : ℚ) = ((3 : Int) : ℚ) := by norm_num
    rw [h, Flt.round32_intCast 3 (by decide)]
    norm_num
  rw [e1, Flt.div_finite _ _ (by norm_num)]
  have hq : Flt.quantum32 (3 / (13421773 / 268435456)) = -18 := by
    apply Flt.quantum32_eq _ _ (by decide)
    · rw [abs_of_pos (by norm_num)]; norm_num
    · rw [abs_of_pos (by norm_num)]; norm_num
  have h := Flt.round32_near (3 / (13421773 / 268435456)) (-18) 15728640 hq (by norm_num)
    (by norm_num) (by rw [abs_of_pos (by norm_num)]; norm_num)
  rw [h]
  norm_num

theorem center_expr_scanTwentieth :
    Flt.sub (Flt.div (Flt.sub (Flt.finite 1.5) (Flt.finite (-1.5)))
      (Flt.finite (13421773 / 268435456))) (Flt.finite 1) = Flt.finite 59 := by
  rw [quotient_scanTwentieth, Flt.sub_finite]
  have h : (60 - 1 : ℚ) = ((59 : Int) : ℚ) := by norm_num
  rw [h, Flt.round32_intCast 59 (by decide)]
  norm_num

theorem trunc_59 : Flt.trunc (59 : ℚ) = 59 := by exact_mod_cast trunc_intCast 59

theorem round_bounds (q : ℚ) : (round q : ℚ) - 1 / 2 ≤ q ∧ q ≤ (round q : ℚ) + 1 / 2 := by
  have h := abs_sub_round q
  rw [abs_le] at h
  constructor <;> linarith [h.1, h.2]

theorem wellFormed_scanP5 : wellFormed scanP5 = true := by
  have h1 : scanP5.angle_min = Flt.finite 0 := rfl
  have h2 : scanP5.angle_max = Flt.finite 2.0 := rfl
  have h3 : scanP5.angle_increment = Flt.finite (5368709 / 536870912) := Flt.round32_hundredth
  have h4 : scanP5.ranges.length = 200 := by simp [scanP5]
  have hr : round ((2.0 - 0) / (5368709 / 536870912) : ℚ) = 200 := by
    rw [round_eq, Int.floor_eq_iff]
    constructor <;> norm_num
  simp only [wellFormed, h1, h2, h3, h4, hr]
  norm_num

theorem div_lower (a b inc : ℚ) (hpos : 0 < inc) (h : a ≤ b) : a / inc ≤ b / inc :=
  div_le_div_of_nonneg_right h (le_of_lt hpos)

theorem center_lower (amin amax inc X c : ℚ) (m : Int) (hpos : 0 < inc)
    (hg : amax - amin = (m : ℚ) * (2 : ℚ) ^ (-149 : ℤ))
    (hc0 : 0 ≤ c) (hcq : c - 1 ≤ (amax - amin) / inc) (hc1 : c ≤ 100000000)
    (hX : Flt.sub (Flt.div (Flt.sub (Flt.finite amax) (Flt.finite amin)) (Flt.finite inc))
      (Flt.finite 1) = Flt.finite X) :
    c - 25 ≤ X := by
  obtain ⟨Q, hQ, hQ1⟩ := sub_one_finite _ _ hX X rfl
  obtain ⟨sv, hsv, hQ2⟩ := div_sub_finite amax amin inc Q (ne_of_gt hpos) hQ
  have hd0 : (0 : ℚ) < (2 : ℚ) ^ (-150 : ℤ) := by positivity
  have hd1 : (2 : ℚ) ^ (-150 : ℤ) ≤ 1 / 1000 := by norm_num
  rcases le_or_lt 0 (amax - amin) with hs | hs
  · obtain ⟨s1, -⟩ := Flt.round32_grid_nonneg _ _ m hg hsv hs
    have t1 := div_lower _ _ inc hpos s1
    have e : (amax - amin - (amax - amin) / 16777216) / inc
        = (amax - amin) / inc - (amax - amin) / inc / 16777216 := by ring
    rw [e] at t1
    have hq0 : 0 ≤ (amax - amin) / inc := div_nonneg hs (le_of_lt hpos)
    have ht0 : 0 ≤ sv / inc := by linarith
    obtain ⟨q1, -⟩ := Flt.round32_bounds_nonneg _ _ hQ2 ht0
    rcases le_or_lt 0 (Q - 1) with hu | hu
    · obtain ⟨x1, -⟩ := Flt.round32_bounds_nonneg _ _ hQ1 hu
      linarith
    · obtain ⟨x1, -⟩ := Flt.round32_bounds_nonpos _ _ hQ1 (le_of_lt hu)
      linarith
  · obtain ⟨s1, s2⟩ := Flt.round32_grid_nonpos _ _ m hg hsv (le_of_lt hs)
    have t1 := div_lower _ _ inc hpos s1
    have t2 := div_lower _ _ inc hpos s2
    have e1 : (amax - amin + (amax - amin) / 16777216) / inc
        = (amax - amin) / inc + (amax - amin) / inc / 16777216 := by ring
    have e2 : (amax - amin - (amax - amin) / 16777216) / inc
        = (amax - amin) / inc - (amax - amin) / inc / 16777216 := by ring
    rw [e1] at t1
    rw [e2] at t2
    have hq0 : (amax - amin) / inc < 0 := div_neg_of_neg_of_pos hs hpos
    have ht0 : sv / inc ≤ 0 := by linarith
    obtain ⟨q1, q2⟩ := Flt.round32_bounds_nonpos _ _ hQ2 ht0
    have hu : Q - 1 ≤ 0 := by linarith
    obtain ⟨x1, -⟩ := Flt.round32_bounds_nonpos _ _ hQ1 hu
    linarith

theorem center_expr_scanHuge :
    Flt.sub (Flt.div (Flt.sub (Flt.finite 536870912) (Flt.finite (-31))) (Flt.finite 1))
      (Flt.finite 1) = Flt.finite 536870912 := by
  have e1 : Flt.sub (Flt.finite 536870912) (Flt.finite (-31)) = Flt.finite 536870912 := by
    rw [Flt.sub_finite]
    have hq : Flt.quantum32 (536870912 - (-31)) = 6 := by
      apply Flt.quantum32_eq _ _ (by decide)
      · rw [abs_of_pos (by norm_num)]; norm_num
      · rw [abs_of_pos (by norm_num)]; norm_num
    have h := Flt.round32_near (536870912 - (-31)) 6 8388608 hq (by norm_num) (by norm_num)
      (by rw [abs_of_pos (by norm_num)]; norm_num)
    rw [h]
    norm_num
  have e2 : Flt.div (Flt.finite 536870912) (Flt.finite 1) = Flt.finite 536870912 := by
    rw [Flt.div_finite _ _ (by norm_num)]
    have h : (536870912 / 1 : ℚ) = 536870912 := by norm_num
    rw [h]
    exact Flt.round32_eq 536870912 8388608 6 (by norm_num) (by decide) (by decide) (by decide)
  have e3 : Flt.sub (Flt.finite 536870912) (Flt.finite 1) = Flt.finite 536870912 := by
    rw [Flt.sub_finite]
    have hq : Flt.quantum32 (536870912 - 1) = 5 := by
      apply Flt.quantum32_eq _ _ (by decide)
      · rw [abs_of_pos (by norm_num)]; norm_num
      · rw [abs_of_pos (by norm_num)]; norm_num
    have h := Flt.round32_near (536870912 - 1) 5 16777216 hq (by norm_num) (by norm_num)
      (by rw [abs_of_pos (by norm_num)]; norm_num)
    rw [h]
    norm_num
  rw [e1, e2, e3]

theorem trunc_huge : Flt.trunc (536870912 : ℚ) = 536870912 := by
  exact_mod_cast trunc_intCast 536870912

theorem ray_indices_scanHuge :
    ray_indices scanHuge
      = some { center := 536870912, left := 536870887, right := 536870937 } := by
  have := ray_indices_nonzero scanHuge (-31) 536870912 rfl (by norm_num) center_expr_scanHuge
    (by rw [trunc_huge]; decide) (by rw [trunc_huge]; decide)
  rw [trunc_huge] at this
  exact this

theorem ranges_scanHuge :
    (scan_callback Robot.Robot scanHuge).scan_.ranges
      = List.replicate 536870944 (Flt.finite 1) := rfl

theorem detect_obstacle_scanHuge :
    detect_obstacle (scan_callback Robot.Robot scanHuge) = some (false,
      { scan_callback Robot.Robot scanHuge with
        center_dist_ := Flt.finite 1
        left_dist_ := Flt.finite 1
        right_dist_ := Flt.finite 1 }) := by
  rw [← blocked3_one]
  apply detect_obstacle_of_reads (scan_callback Robot.Robot scanHuge) _ _ _ _
    ray_indices_scanHuge
  · rw [ranges_scanHuge]; exact readAt_replicate _ _ _ (by decide) (by decide)
  · rw [ranges_scanHuge]; exact readAt_replicate _ _ _ (by decide) (by decide)
  · rw [ranges_scanHuge]; exact readAt_replicate _ _ _ (by decide) (by decide)

theorem wellFormed_scanLidar : wellFormed scanLidar = true := by
  have h1 : scanLidar.angle_min = Flt.finite 0 := rfl
  have h2 : scanLidar.angle_max = Flt.finite 6.2657318115234375 := rfl
  have h3 : scanLidar.angle_increment = Flt.finite (9370165 / 536870912) := rfl
  have h4 : scanLidar.ranges.length = 360 := by simp [scanLidar]
  have hr : round ((6.2657318115234375 - 0) / (9370165 / 536870912) : ℚ) = 359 := by
    rw [round_eq, Int.floor_eq_iff]
    constructor <;> norm_num
  simp only [wellFormed, h1, h2, h3, h4, hr]
  norm_num

theorem left_expr_scanLidar :
    Flt.sub (Flt.div scanLidar.angle_max scanLidar.angle_increment) (Flt.finite 25)
      = Flt.finite 334 := by
  have e1 : Flt.div scanLidar.angle_max scanLidar.angle_increment = Flt.finite 359 := by
    show Flt.div (Flt.finite 6.2657318115234375) (Flt.finite (9370165 / 536870912))
      = Flt.finite 359
    rw [Flt.div_finite _ _ (by norm_num)]
    have hq : Flt.quantum32 (6.2657318115234375 / (9370165 / 536870912)) = -15 := by
      apply Flt.quantum32_eq _ _ (by decide)
      · rw [abs_of_pos (by norm_num)]; norm_num
      · rw [abs_of_pos (by norm_num)]; norm_num
    have h := Flt.round32_near (6.2657318115234375 / (9370165 / 536870912)) (-15) 11763712 hq
      (by norm_num) (by norm_num) (by rw [abs_of_pos (by norm_num)]; norm_num)
    rw [h]
    norm_num
  rw [e1, Flt.sub_finite]
  have e2 : (359 - 25 : ℚ) = ((334 : Int) : ℚ) := by norm_num
  rw [e2, Flt.round32_intCast 334 (by decide)]
  norm_num

theorem ray_indices_scanLidar :
    ray_indices scanLidar = some { center := 0, left := 334, right := 25 } := by
  have ht : Flt.trunc (334 : ℚ) = 334 := by exact_mod_cast trunc_intCast 334
  have := ray_indices_zero scanLidar 334 rfl left_expr_scanLidar (by rw [ht]; decide)
    (by rw [ht]; decide)
  rw [ht] at this
  exact this

/-! ## Claims -/

/-- C1, as amended: for every controller state and every stored sample whose
`header.stamp.sec` is nonzero and on which `detect_obstacle` yields verdict `v`,
one call of `timer_callback` ends in the next state of the table of spec 4.2 and
publishes exactly the commands of that cell: none in the two no-op cells, one
otherwise; never more than one. -/
theorem timer_callback_table (r r1 : Robot) (v : Bool)
    (hsec : r.scan_.header.stamp.sec ≠ 0)
    (hv : detect_obstacle r = some (v, r1)) :
    timer_callback r
        = some ({ r1 with state_ := (specTable r.state_ v).1 }, (specTable r.state_ v).2)
      ∧ (specTable r.state_ v).2.length ≤ 1 := by
  have hs := (detect_obstacle_state r r1 v hv).1
  cases hst : r.state_ <;> cases v <;>
    simp [timer_callback, hsec, hst, hv, specTable, stopCmd, spinCmd, forwardCmd, TWIST.init]
  all_goals first | (cases r1; simp_all; done) | norm_num

/-- Witness for C1: a halted robot holding a clear 400-ray sample stamped 1 s. -/
theorem timer_callback_table_witness :
    timer_callback (robot400 1 (Flt.finite 1))
        = some ({ ({ robot400 1 (Flt.finite 1) with
              center_dist_ := Flt.finite 1, left_dist_ := Flt.finite 1,
              right_dist_ := Flt.finite 1 } : Robot) with state_ := FORWARD }, [forwardCmd])
      ∧ [forwardCmd].length ≤ 1 :=
  timer_callback_table (robot400 1 (Flt.finite 1)) _ false (by decide)
    (by rw [detect_obstacle_robot400, blocked3_one])

/-- C1 fails as stated: a halted robot that has received a clear sample whose
stamp reads 0 s gets the verdict "no obstacle", yet `timer_callback` leaves it
in `STOP` and publishes nothing, where the table asks for `FORWARD` and one
forward command. -/
theorem timer_callback_table_zero_stamp :
    (∃ r1, detect_obstacle (robot400 0 (Flt.finite 1)) = some (false, r1))
      ∧ (robot400 0 (Flt.finite 1)).state_ = STOP
      ∧ timer_callback (robot400 0 (Flt.finite 1)) = some (robot400 0 (Flt.finite 1), [])
      ∧ specTable STOP false = (FORWARD, [forwardCmd]) := by
  refine ⟨⟨_, by rw [detect_obstacle_robot400, blocked3_one]⟩, rfl, ?_, rfl⟩
  have h : (robot400 0 (Flt.finite 1)).scan_.header.stamp.sec = 0 := rfl
  simp [timer_callback, h]

/-- C2: whenever the three reads of `detect_obstacle` are defined, giving the
distances `l`, `c` and `rt`, it returns a verdict, and the verdict is true if
and only if at least one of the three is strictly less than 0.8.  For finite
readings this is the comparison of rationals with 4/5: a reading of exactly 0.8
does not block, one reading below 0.8 with the other two at or above it gives
"obstacle", and three readings at or above 0.8 give "no obstacle". -/
theorem detect_obstacle_iff_below (r : Robot) (idx : Rays) (c l rt : Flt)
    (hidx : ray_indices r.scan_ = some idx)
    (hc : readAt r.scan_.ranges idx.center = some c)
    (hl : readAt r.scan_.ranges idx.left = some l)
    (hr : readAt r.scan_.ranges idx.right = some rt) :
    ∃ v r1, detect_obstacle r = some (v, r1)
      ∧ (v = true ↔ (Flt.lt l (Flt.finite 0.8) = true ∨ Flt.lt c (Flt.finite 0.8) = true
          ∨ Flt.lt rt (Flt.finite 0.8) = true))
      ∧ (∀ a b d : ℚ, l = Flt.finite a → c = Flt.finite b → rt = Flt.finite d →
          (v = true ↔ (a < 4 / 5 ∨ b < 4 / 5 ∨ d < 4 / 5)))
      ∧ Flt.lt (Flt.finite 0.8) (Flt.finite 0.8) = false := by
  refine ⟨_, _, detect_obstacle_of_reads r idx c l rt hidx hc hl hr, blocked3_iff l c rt, ?_, ?_⟩
  · intro a b d ha hb hd
    subst ha hb hd
    rw [blocked3_iff, Flt.lt_finite, Flt.lt_finite, Flt.lt_finite]
    norm_num
  · simp [Flt.lt]

/-- Witness for C2: the clear 400-ray sample, read at subscripts 0, 375, 25. -/
theorem detect_obstacle_iff_below_witness :
    ∃ v r1, detect_obstacle (robot400 1 (Flt.finite 1)) = some (v, r1)
      ∧ (v = true ↔ (Flt.lt (Flt.finite 1) (Flt.finite 0.8) = true
          ∨ Flt.lt (Flt.finite 1) (Flt.finite 0.8) = true
          ∨ Flt.lt (Flt.finite 1) (Flt.finite 0.8) = true))
      ∧ (∀ a b d : ℚ, Flt.finite 1 = Flt.finite a → Flt.finite 1 = Flt.finite b →
          Flt.finite 1 = Flt.finite d → (v = true ↔ (a < 4 / 5 ∨ b < 4 / 5 ∨ d < 4 / 5)))
      ∧ Flt.lt (Flt.finite 0.8) (Flt.finite 0.8) = false :=
  detect_obstacle_iff_below (robot400 1 (Flt.finite 1)) { center := 0, left := 375, right := 25 }
    (Flt.finite 1) (Flt.finite 1) (Flt.finite 1)
    (ray_indices_scan400 1 (Flt.finite 1))
    (readAt_robot400 1 _ 0 (by decide) (by decide))
    (readAt_robot400 1 _ 375 (by decide) (by decide))
    (readAt_robot400 1 _ 25 (by decide) (by decide))

/-- C3: a freshly constructed `Robot` is in state `STOP` and holds the
value-initialised scan (no sample stored); any number `n` of `timer_callback`
calls made from there publish nothing and leave the object, its state
included, as constructed. -/
theorem ticks_before_first_scan :
    Robot.Robot.state_ = STOP ∧ Robot.Robot.scan_ = SCAN.init
      ∧ ∀ n : Nat, ticks n Robot.Robot = some (Robot.Robot, []) := by
  refine ⟨rfl, rfl, ?_⟩
  intro n
  induction n with
  | zero => rfl
  | succ k ih =>
    have h : timer_callback Robot.Robot = some (Robot.Robot, []) := by
      have h0 : Robot.Robot.scan_.header.stamp.sec = 0 := rfl
      simp [timer_callback, h0]
    simp [ticks, h, ih]

/-- C4: for every stored sample with `angle_min = 0`, `detect_obstacle` uses the
subscripts 0 (center), 25 (right) and, for the left, the value `L` of
`angle_max / angle_increment - 25` truncated toward zero, the quotient and the
difference being those of the source, `float` operations each rounded to
binary32.  When `L` truncates to a valid `size_t` and the three elements exist,
it stores exactly them and returns the threshold verdict on them.  On the sample
of P5 (`angle_max = 2.0`, `angle_increment = 0.01` as a `float`, 200 ranges) the
subscripts are 0, 25 and 175. -/
theorem detect_obstacle_zero_min_indices (r : Robot) (L : ℚ)
    (hmin : r.scan_.angle_min = Flt.finite 0)
    (hL : Flt.sub (Flt.div r.scan_.angle_max r.scan_.angle_increment) (Flt.finite 25)
      = Flt.finite L)
    (hk0 : 0 ≤ Flt.trunc L)
    (hk1 : Flt.trunc L < 2 ^ 64) :
    ray_indices r.scan_ = some { center := 0, left := Flt.trunc L, right := 25 }
      ∧ (∀ c l rt : Flt, readAt r.scan_.ranges 0 = some c →
          readAt r.scan_.ranges (Flt.trunc L) = some l →
          readAt r.scan_.ranges 25 = some rt →
          detect_obstacle r = some (blocked3 l c rt,
            { r with center_dist_ := c, left_dist_ := l, right_dist_ := rt }))
      ∧ ray_indices scanP5 = some { center := 0, left := 175, right := 25 }
      ∧ detect_obstacle (scan_callback r scanP5) = some (true,
          { scan_callback r scanP5 with
            center_dist_ := Flt.finite 0
            left_dist_ := Flt.finite 175
            right_dist_ := Flt.finite 25 }) := by
  have hidx := ray_indices_zero r.scan_ L hmin hL hk0 hk1
  refine ⟨hidx, ?_, ray_indices_scanP5, ?_⟩
  · intro c l rt hc hl hr
    exact detect_obstacle_of_reads r _ c l rt hidx hc hl hr
  · have hb : blocked3 (Flt.finite 175) (Flt.finite 0) (Flt.finite 25) = true := by
      simp [blocked3, Flt.lt]
      norm_num
    rw [← hb]
    have e0 := readAt_scanP5 0 (by decide)
    have e175 := readAt_scanP5 175 (by decide)
    have e25 := readAt_scanP5 25 (by decide)
    simp only [Nat.cast_ofNat, Nat.cast_zero] at e0 e175 e25
    exact detect_obstacle_of_reads (scan_callback r scanP5) _ _ _ _ ray_indices_scanP5
      (by simpa using e0) e175 e25

/-- Witness for C4: `scanTenth` (`angle_max = 20`, `angle_increment = 0.1` as a
`float`), whose single-precision quotient is 200, so that the left subscript is
175 where the exact quotient would give 174. -/
theorem detect_obstacle_zero_min_indices_witness :
    (ray_indices (scan_callback Robot.Robot scanTenth).scan_
        = some { center := 0, left := Flt.trunc 175, right := 25 }
      ∧ (∀ c l rt : Flt, readAt (scan_callback Robot.Robot scanTenth).scan_.ranges 0 = some c →
          readAt (scan_callback Robot.Robot scanTenth).scan_.ranges (Flt.trunc 175) = some l →
          readAt (scan_callback Robot.Robot scanTenth).scan_.ranges 25 = some rt →
          detect_obstacle (scan_callback Robot.Robot scanTenth) = some (blocked3 l c rt,
            { scan_callback Robot.Robot scanTenth with
              center_dist_ := c
              left_dist_ := l
              right_dist_ := rt }))
      ∧ ray_indices scanP5 = some { center := 0, left := 175, right := 25 }
      ∧ detect_obstacle (scan_callback (scan_callback Robot.Robot scanTenth) scanP5)
          = some (true,
          { scan_callback (scan_callback Robot.Robot scanTenth) scanP5 with
            center_dist_ := Flt.finite 0
            left_dist_ := Flt.finite 175
            right_dist_ := Flt.finite 25 }))
      ∧ Flt.trunc (175 : ℚ) = 175
      ∧ Flt.trunc ((20 : ℚ) / (13421773 / 134217728) - 25) = 174 :=
  ⟨detect_obstacle_zero_min_indices (scan_callback Robot.Robot scanTenth) 175 rfl
      left_expr_scanTenth (by rw [trunc_175]; decide) (by rw [trunc_175]; decide),
    trunc_175, exact_left_scanTenth⟩

/-- C5, as amended: for every sample with `angle_min ≠ 0` and
`angle_increment > 0`, the center subscript is the value `X` of
`(angle_max - angle_min) / angle_increment - 1` truncated toward zero, the two
differences and the quotient being the `float` operations of the source, each
rounded to binary32; the left subscript is the center minus 25 and the right one
the center plus 25 (all three fitting an `int`).  When the single-precision
quotient `Q` is at least 1 and below `2 ^ 24` the center is `⌊Q⌋ - 1`, which
equals `round Q - 1` if the fractional part of `Q` is below 1/2 and
`round Q - 2` otherwise. -/
theorem ray_indices_nonzero_min (s : SCAN) (amin amax inc X : ℚ)
    (hmin : s.angle_min = Flt.finite amin) (hne : amin ≠ 0)
    (hmax : s.angle_max = Flt.finite amax)
    (hinc : s.angle_increment = Flt.finite inc) (hpos : 0 < inc)
    (hX : Flt.sub (Flt.div (Flt.sub (Flt.finite amax) (Flt.finite amin)) (Flt.finite inc))
      (Flt.finite 1) = Flt.finite X)
    (hlo : Flt.INT_MIN ≤ Flt.trunc X - 25)
    (hhi : Flt.trunc X + 25 ≤ Flt.INT_MAX) :
    ∃ idx : Rays, ray_indices s = some idx
      ∧ idx.center = Flt.trunc X
      ∧ idx.left = idx.center - 25
      ∧ idx.right = idx.center + 25
      ∧ ∃ Q : ℚ, Flt.div (Flt.sub (Flt.finite amax) (Flt.finite amin)) (Flt.finite inc)
            = Flt.finite Q
          ∧ (1 ≤ Q → Q < 16777216 →
              idx.center = ⌊Q⌋ - 1
              ∧ (Int.fract Q < 1 / 2 → idx.center = round Q - 1)
              ∧ (1 / 2 ≤ Int.fract Q → idx.center = round Q - 2)) := by
  have hX2 : Flt.sub (Flt.div (Flt.sub s.angle_max s.angle_min) s.angle_increment)
      (Flt.finite 1) = Flt.finite X := by rw [hmax, hmin, hinc]; exact hX
  obtain ⟨Q, hQ, hQ1⟩ := sub_one_finite _ _ hX X rfl
  obtain ⟨sv, -, hsv⟩ := div_sub_finite amax amin inc Q (ne_of_gt hpos) hQ
  refine ⟨_, ray_indices_nonzero s amin X hmin hne hX2 hlo hhi, rfl, rfl, rfl, Q, hQ, ?_⟩
  intro h1 h2
  have hx : X = Q - 1 := by
    have := Flt.round32_sub_one _ Q hsv h1 h2
    rw [this] at hQ1
    simp only [Flt.finite.injEq] at hQ1
    exact hQ1.symm
  have hc : Flt.trunc X = ⌊Q⌋ - 1 := by rw [hx]; exact trunc_sub_one Q h1
  refine ⟨hc, ?_, ?_⟩
  · intro hf
    show Flt.trunc X = _
    rw [hc, round_of_fract_lt _ hf]
  · intro hf
    show Flt.trunc X = _
    rw [hc, round_of_le_fract _ hf]
    ring

/-- Witness for C5: `scanTwentieth` (-1.5 rad to 1.5 rad, increment 0.05 as a
`float`): the single-precision quotient is 60 and the center subscript 59. -/
theorem ray_indices_nonzero_min_witness :
    ∃ idx : Rays, ray_indices scanTwentieth = some idx
      ∧ idx.center = Flt.trunc 59
      ∧ idx.left = idx.center - 25
      ∧ idx.right = idx.center + 25
      ∧ ∃ Q : ℚ, Flt.div (Flt.sub (Flt.finite 1.5) (Flt.finite (-1.5)))
            (Flt.finite (13421773 / 268435456)) = Flt.finite Q
          ∧ (1 ≤ Q → Q < 16777216 →
              idx.center = ⌊Q⌋ - 1
              ∧ (Int.fract Q < 1 / 2 → idx.center = round Q - 1)
              ∧ (1 / 2 ≤ Int.fract Q → idx.center = round Q - 2)) :=
  ray_indices_nonzero_min scanTwentieth (-1.5) 1.5 (13421773 / 268435456) 59 rfl (by norm_num)
    rfl Flt.round32_twentieth (by norm_num) center_expr_scanTwentieth
    (by rw [trunc_59]; decide) (by rw [trunc_59]; decide)

/-- C5 fails as stated: on `scanAsym` (`angle_min = 0.25`, `angle_max = 100`,
`angle_increment = 1`) the quotient is 99.75, so the claimed center subscript is
`round 99.75 - 1 = 99`, but `detect_obstacle` truncates 98.75 and reads the
center at 98, the left at 73 and the right at 123. -/
theorem ray_indices_not_rounded :
    ray_indices scanAsym = some { center := 98, left := 73, right := 123 }
      ∧ round (((100 : ℚ) - 0.25) / 1) - 1 = 99
      ∧ detect_obstacle (scan_callback Robot.Robot scanAsym) = some (false,
          { scan_callback Robot.Robot scanAsym with
            center_dist_ := Flt.finite 98
            left_dist_ := Flt.finite 73
            right_dist_ := Flt.finite 123 }) := by
  refine ⟨ray_indices_scanAsym, ?_, ?_⟩
  · have h : round (((100 : ℚ) - 0.25) / 1) = 100 := by
      rw [round_eq, Int.floor_eq_iff]
      constructor <;> norm_num
    rw [h]
    rfl
  · have hb : blocked3 (Flt.finite 73) (Flt.finite 98) (Flt.finite 123) = false := by
      simp [blocked3, Flt.lt]
      norm_num
    rw [← hb]
    have e98 := readAt_scanAsym 98 (by decide)
    have e73 := readAt_scanAsym 73 (by decide)
    have e123 := readAt_scanAsym 123 (by decide)
    simp only [Nat.cast_ofNat] at e98 e73 e123
    exact detect_obstacle_of_reads (scan_callback Robot.Robot scanAsym) _ _ _ _
      ray_indices_scanAsym e98 e73 e123

/-- C6, as amended: for every well-formed sample with `angle_min = 0`, at
least 26 ranges and at most 100000000, each of the three subscripts at which
`detect_obstacle` reads `scan_.ranges` is at least 0 and less than the number of
ranges, and `detect_obstacle` returns a verdict. -/
theorem zero_min_reads_inside (s : SCAN) (hwf : wellFormed s = true)
    (hmin : s.angle_min = Flt.finite 0) (hlen : 26 ≤ s.ranges.length)
    (hsz : s.ranges.length ≤ 100000000) :
    ∃ idx : Rays, ray_indices s = some idx
      ∧ validIndex s.ranges idx.center
      ∧ validIndex s.ranges idx.left
      ∧ validIndex s.ranges idx.right
      ∧ ∀ r : Robot, r.scan_ = s → ∃ v r1, detect_obstacle r = some (v, r1) := by
  obtain ⟨amax, inc, hmax, hinc, hpos, hq⟩ := wellFormed_zero_min s hwf hmin
  obtain ⟨rb1, rb2⟩ := round_bounds (amax / inc)
  have hq1 : (s.ranges.length : ℚ) - 3 / 2 ≤ amax / inc := by
    rcases hq with h | h
    · have : ((s.ranges.length : Int) : ℚ) = (round (amax / inc) : ℚ) := by rw [h]
      push_cast at this
      linarith
    · have : ((s.ranges.length : Int) : ℚ) = ((round (amax / inc) + 1 : Int) : ℚ) := by rw [h]
      push_cast at this
      linarith
  have hq2 : amax / inc ≤ (s.ranges.length : ℚ) + 1 / 2 := by
    rcases hq with h | h
    · have : ((s.ranges.length : Int) : ℚ) = (round (amax / inc) : ℚ) := by rw [h]
      push_cast at this
      linarith
    · have : ((s.ranges.length : Int) : ℚ) = ((round (amax / inc) + 1 : Int) : ℚ) := by rw [h]
      push_cast at this
      linarith
  obtain ⟨L, hL, hL0, hL1⟩ := zero_left_bounds amax inc s.ranges.length hpos hq1 hq2 hlen hsz
  rw [← hmax, ← hinc] at hL
  have hidx := ray_indices_zero s L hmin hL hL0 (by omega)
  have vc : validIndex s.ranges (0 : Int) := ⟨le_refl _, by omega⟩
  have vl : validIndex s.ranges (Flt.trunc L) := ⟨hL0, hL1⟩
  have vr : validIndex s.ranges (25 : Int) := ⟨by decide, by omega⟩
  refine ⟨_, hidx, vc, vl, vr, ?_⟩
  intro r hr
  subst hr
  obtain ⟨c, hc⟩ := readAt_isSome _ _ vc
  obtain ⟨l, hl⟩ := readAt_isSome _ _ vl
  obtain ⟨rt, hrt⟩ := readAt_isSome _ _ vr
  exact ⟨_, _, detect_obstacle_of_reads r _ c l rt hidx hc hl hrt⟩

/-- Witness for C6: the sample of P5, whose increment is 0.01 as a `float` and
whose 200 ranges match the span to the nearest integer; and the 360-ray lidar
sample, whose 360 ranges are one more than its 359 increments. -/
theorem zero_min_reads_inside_witness :
    (∃ idx : Rays, ray_indices scanP5 = some idx
      ∧ validIndex scanP5.ranges idx.center
      ∧ validIndex scanP5.ranges idx.left
      ∧ validIndex scanP5.ranges idx.right
      ∧ ∀ r : Robot, r.scan_ = scanP5 → ∃ v r1, detect_obstacle r = some (v, r1))
    ∧ (∃ idx : Rays, ray_indices scanLidar = some idx
      ∧ validIndex scanLidar.ranges idx.center
      ∧ validIndex scanLidar.ranges idx.left
      ∧ validIndex scanLidar.ranges idx.right
      ∧ ∀ r : Robot, r.scan_ = scanLidar → ∃ v r1, detect_obstacle r = some (v, r1)) :=
  ⟨zero_min_reads_inside scanP5 wellFormed_scanP5 rfl
      (by
        have h4 : scanP5.ranges.length = 200 := by simp [scanP5]
        rw [h4]; decide)
      (by
        have h4 : scanP5.ranges.length = 200 := by simp [scanP5]
        rw [h4]; decide),
    zero_min_reads_inside scanLidar wellFormed_scanLidar rfl
      (by
        have h4 : scanLidar.ranges.length = 360 := by simp [scanLidar]
        rw [h4]; decide)
      (by
        have h4 : scanLidar.ranges.length = 360 := by simp [scanLidar]
        rw [h4]; decide)⟩

/-- C6 fails as stated, in both branches.  `scanShort` is well formed with
`angle_min = 0` and 25 ranges, and its right ray is read at subscript 25;
`scanSym` is well formed with `angle_min = -1.5` and 193 ranges, and its right
ray is read at subscript 216.  Neither read is inside the array, so
`detect_obstacle` has no defined result on either sample. -/
theorem well_formed_read_outside :
    wellFormed scanShort = true
      ∧ scanShort.ranges.length = 25
      ∧ ray_indices scanShort = some { center := 0, left := 0, right := 25 }
      ∧ ¬ validIndex scanShort.ranges 25
      ∧ detect_obstacle (scan_callback Robot.Robot scanShort) = none
      ∧ wellFormed scanSym = true
      ∧ scanSym.ranges.length = 193
      ∧ ray_indices scanSym = some { center := 191, left := 166, right := 216 }
      ∧ ¬ validIndex scanSym.ranges 216
      ∧ detect_obstacle (scan_callback Robot.Robot scanSym) = none := by
  have hs : scanShort.ranges.length = 25 := rfl
  have hy : scanSym.ranges.length = 193 := rfl
  have es : scanShort.ranges = List.replicate 25 (Flt.finite 1) := rfl
  have ey : scanSym.ranges = List.replicate 193 (Flt.finite 1) := rfl
  refine ⟨wellFormed_scanShort, hs, ray_indices_scanShort, ?_, ?_, wellFormed_scanSym, hy,
    ray_indices_scanSym, ?_, ?_⟩
  · simp [validIndex, hs]
  · apply detect_obstacle_none_of_read _ _ ray_indices_scanShort
    right; right
    show readAt scanShort.ranges 25 = none
    simp only [readAt, es, List.getElem?_replicate]
    simp
  · simp [validIndex, hy]
  · apply detect_obstacle_none_of_read _ _ ray_indices_scanSym
    right; right
    show readAt scanSym.ranges 216 = none
    simp only [readAt, ey, List.getElem?_replicate]
    simp

/-- C7: deliver any sequence of samples, each followed by one
`timer_callback`.  Starting in `FORWARD` with every sample classified "no
obstacle" (`v = false`), or starting in `TURN` with every sample classified
"obstacle" (`v = true`), the whole run publishes no command and ends in the
state it started in.  This holds for every length of the sequence, so for every
n ≥ 1. -/
theorem run_idle_cells (r : Robot) (samples : List SCAN) (v : Bool)
    (hst : (r.state_ = FORWARD ∧ v = false) ∨ (r.state_ = TURN ∧ v = true))
    (hv : ∀ s ∈ samples, verdict s = some v) :
    ∃ r1, run r samples = some (r1, []) ∧ r1.state_ = r.state_ := by
  induction samples generalizing r with
  | nil => exact ⟨r, rfl, rfl⟩
  | cons s rest ih =>
    have hs : (scan_callback r s).state_ = r.state_ := rfl
    obtain ⟨r1, h1, e1⟩ := timer_callback_idle (scan_callback r s) v (by rw [hs]; exact hst)
      (hv s (List.mem_cons_self s rest))
    have e1b : r1.state_ = r.state_ := e1.trans hs
    obtain ⟨r2, h2, e2⟩ := ih r1 (by rw [e1b]; exact hst)
      (fun t ht => hv t (List.mem_cons_of_mem s ht))
    exact ⟨r2, by simp [run, h1, h2], e2.trans e1b⟩

/-- Witness for C7: three clear samples delivered to a robot in `FORWARD`, and
three samples reading 0.5 everywhere delivered to a robot in `TURN`. -/
theorem run_idle_cells_witness :
    (∃ r1, run (robotIn FORWARD)
        [scan400 1 (Flt.finite 1), scan400 2 (Flt.finite 1), scan400 3 (Flt.finite 1)]
          = some (r1, []) ∧ r1.state_ = (robotIn FORWARD).state_)
      ∧ (∃ r1, run (robotIn TURN)
        [scan400 1 (Flt.finite 0.5), scan400 2 (Flt.finite 0.5), scan400 3 (Flt.finite 0.5)]
          = some (r1, []) ∧ r1.state_ = (robotIn TURN).state_) :=
  ⟨run_idle_cells (robotIn FORWARD) _ false (Or.inl ⟨rfl, rfl⟩)
      (by
        intro s hs
        simp only [List.mem_cons, List.mem_singleton, List.not_mem_nil, or_false] at hs
        rcases hs with h | h | h <;> subst h <;> rw [verdict_scan400, blocked3_one]),
    run_idle_cells (robotIn TURN) _ true (Or.inr ⟨rfl, rfl⟩)
      (by
        intro s hs
        simp only [List.mem_cons, List.mem_singleton, List.not_mem_nil, or_false] at hs
        rcases hs with h | h | h <;> subst h <;> rw [verdict_scan400, blocked3_half])⟩

/-- C8: whenever the three reads of `detect_obstacle` are defined and at least
one of the three sampled rays (left, center or right) reads exactly 0,
`detect_obstacle` returns true, whatever the other two readings are. -/
theorem detect_obstacle_zero_reading (r : Robot) (idx : Rays) (c l rt : Flt)
    (hidx : ray_indices r.scan_ = some idx)
    (hc : readAt r.scan_.ranges idx.center = some c)
    (hl : readAt r.scan_.ranges idx.left = some l)
    (hr : readAt r.scan_.ranges idx.right = some rt)
    (hz : l = Flt.finite 0 ∨ c = Flt.finite 0 ∨ rt = Flt.finite 0) :
    ∃ r1, detect_obstacle r = some (true, r1) := by
  have h0 : Flt.lt (Flt.finite 0) (Flt.finite 0.8) = true := by
    rw [Flt.lt_finite]; norm_num
  have hb : blocked3 l c rt = true := by
    rw [blocked3_iff]
    rcases hz with h | h | h <;> subst h
    · exact Or.inl h0
    · exact Or.inr (Or.inl h0)
    · exact Or.inr (Or.inr h0)
  have hd := detect_obstacle_of_reads r idx c l rt hidx hc hl hr
  rw [hb] at hd
  exact ⟨_, hd⟩

/-- Witness for C8: the 400-ray sample reading 0 everywhere. -/
theorem detect_obstacle_zero_reading_witness :
    ∃ r1, detect_obstacle (robot400 1 (Flt.finite 0)) = some (true, r1) :=
  detect_obstacle_zero_reading (robot400 1 (Flt.finite 0))
    { center := 0, left := 375, right := 25 } (Flt.finite 0) (Flt.finite 0) (Flt.finite 0)
    (ray_indices_scan400 1 (Flt.finite 0))
    (readAt_robot400 1 _ 0 (by decide) (by decide))
    (readAt_robot400 1 _ 375 (by decide) (by decide))
    (readAt_robot400 1 _ 25 (by decide) (by decide))
    (Or.inl rfl)

/-- C9, as amended: `detect_obstacle` validates nothing and has no error
result.  For every stored sample, well formed or not (so also with an increment
that is not positive, or a range count that does not match the span), whose
three computed subscripts fall inside the range array, it returns the threshold
verdict on the three readings. -/
theorem detect_obstacle_unvalidated (r : Robot) (idx : Rays)
    (hidx : ray_indices r.scan_ = some idx)
    (vc : validIndex r.scan_.ranges idx.center)
    (vl : validIndex r.scan_.ranges idx.left)
    (vr : validIndex r.scan_.ranges idx.right) :
    ∃ c l rt : Flt, readAt r.scan_.ranges idx.center = some c
      ∧ readAt r.scan_.ranges idx.left = some l
      ∧ readAt r.scan_.ranges idx.right = some rt
      ∧ detect_obstacle r = some (blocked3 l c rt,
          { r with center_dist_ := c, left_dist_ := l, right_dist_ := rt }) := by
  obtain ⟨c, hc⟩ := readAt_isSome _ _ vc
  obtain ⟨l, hl⟩ := readAt_isSome _ _ vl
  obtain ⟨rt, hrt⟩ := readAt_isSome _ _ vr
  exact ⟨c, l, rt, hc, hl, hrt, detect_obstacle_of_reads r idx c l rt hidx hc hl hrt⟩

/-- Witness for C9: the sample with increment -1, read at subscripts 0, 25, 25. -/
theorem detect_obstacle_unvalidated_witness :
    ∃ c l rt : Flt, readAt (scan_callback Robot.Robot scanNegInc).scan_.ranges 0 = some c
      ∧ readAt (scan_callback Robot.Robot scanNegInc).scan_.ranges 25 = some l
      ∧ readAt (scan_callback Robot.Robot scanNegInc).scan_.ranges 25 = some rt
      ∧ detect_obstacle (scan_callback Robot.Robot scanNegInc) = some (blocked3 l c rt,
          { scan_callback Robot.Robot scanNegInc with
            center_dist_ := c
            left_dist_ := l
            right_dist_ := rt }) :=
  detect_obstacle_unvalidated (scan_callback Robot.Robot scanNegInc)
    { center := 0, left := 25, right := 25 } ray_indices_scanNegInc
    ⟨by decide, by decide⟩ ⟨by decide, by decide⟩ ⟨by decide, by decide⟩

/-- C9 fails as stated: `scanNegInc` has `angle_increment = -1` and
`scanMiscount` has 500 ranges for a span of 400 increments, so neither is well
formed, yet on both `detect_obstacle` computes its subscripts and returns the
verdict "no obstacle" to its caller. -/
theorem malformed_sample_gets_verdict :
    wellFormed scanNegInc = false
      ∧ scanNegInc.angle_increment = Flt.finite (-1)
      ∧ ray_indices scanNegInc = some { center := 0, left := 25, right := 25 }
      ∧ detect_obstacle (scan_callback Robot.Robot scanNegInc) = some (false,
          { scan_callback Robot.Robot scanNegInc with
            center_dist_ := Flt.finite 1
            left_dist_ := Flt.finite 1
            right_dist_ := Flt.finite 1 })
      ∧ wellFormed scanMiscount = false
      ∧ scanMiscount.ranges.length = 500
      ∧ ray_indices scanMiscount = some { center := 0, left := 375, right := 25 }
      ∧ detect_obstacle (scan_callback Robot.Robot scanMiscount) = some (false,
          { scan_callback Robot.Robot scanMiscount with
            center_dist_ := Flt.finite 1
            left_dist_ := Flt.finite 1
            right_dist_ := Flt.finite 1 }) := by
  refine ⟨wellFormed_scanNegInc, rfl, ray_indices_scanNegInc, ?_, wellFormed_scanMiscount,
    List.length_replicate 500 _, ray_indices_scanMiscount, ?_⟩
  · rw [← blocked3_one]
    exact detect_obstacle_of_reads (scan_callback Robot.Robot scanNegInc) _ _ _ _
      ray_indices_scanNegInc
      (readAt_replicate 26 _ 0 (by decide) (by decide))
      (readAt_replicate 26 _ 25 (by decide) (by decide))
      (readAt_replicate 26 _ 25 (by decide) (by decide))
  · rw [← blocked3_one]
    exact detect_obstacle_of_reads (scan_callback Robot.Robot scanMiscount) _ _ _ _
      ray_indices_scanMiscount
      (readAt_replicate 500 _ 0 (by decide) (by decide))
      (readAt_replicate 500 _ 375 (by decide) (by decide))
      (readAt_replicate 500 _ 25 (by decide) (by decide))

/-- C10, as amended: a sampled ray that reads `+infinity` or NaN never blocks
its sector.  Whenever the three reads of `detect_obstacle` are defined and one
of them is such a sentinel, the verdict is true if and only if one of the other
two readings is strictly below 0.8. -/
theorem detect_obstacle_sentinel (r : Robot) (idx : Rays) (c l rt : Flt)
    (hidx : ray_indices r.scan_ = some idx)
    (hc : readAt r.scan_.ranges idx.center = some c)
    (hl : readAt r.scan_.ranges idx.left = some l)
    (hr : readAt r.scan_.ranges idx.right = some rt) :
    ∃ v r1, detect_obstacle r = some (v, r1)
      ∧ (isSentinel c = true →
          (v = true ↔ (Flt.lt l (Flt.finite 0.8) = true ∨ Flt.lt rt (Flt.finite 0.8) = true)))
      ∧ (isSentinel l = true →
          (v = true ↔ (Flt.lt c (Flt.finite 0.8) = true ∨ Flt.lt rt (Flt.finite 0.8) = true)))
      ∧ (isSentinel rt = true →
          (v = true ↔ (Flt.lt l (Flt.finite 0.8) = true ∨ Flt.lt c (Flt.finite 0.8) = true))) := by
  refine ⟨_, _, detect_obstacle_of_reads r idx c l rt hidx hc hl hr, ?_, ?_, ?_⟩
  · intro h
    rw [blocked3_iff, lt_sentinel c _ h]
    simp
  · intro h
    rw [blocked3_iff, lt_sentinel l _ h]
    simp
  · intro h
    rw [blocked3_iff, lt_sentinel rt _ h]
    simp

/-- Witness for C10: the 400-ray sample reading `+infinity` everywhere. -/
theorem detect_obstacle_sentinel_witness :
    ∃ v r1, detect_obstacle (robot400 1 Flt.posInf) = some (v, r1)
      ∧ (isSentinel Flt.posInf = true →
          (v = true ↔ (Flt.lt Flt.posInf (Flt.finite 0.8) = true
            ∨ Flt.lt Flt.posInf (Flt.finite 0.8) = true)))
      ∧ (isSentinel Flt.posInf = true →
          (v = true ↔ (Flt.lt Flt.posInf (Flt.finite 0.8) = true
            ∨ Flt.lt Flt.posInf (Flt.finite 0.8) = true)))
      ∧ (isSentinel Flt.posInf = true →
          (v = true ↔ (Flt.lt Flt.posInf (Flt.finite 0.8) = true
            ∨ Flt.lt Flt.posInf (Flt.finite 0.8) = true))) :=
  detect_obstacle_sentinel (robot400 1 Flt.posInf)
    { center := 0, left := 375, right := 25 } Flt.posInf Flt.posInf Flt.posInf
    (ray_indices_scan400 1 Flt.posInf)
    (readAt_robot400 1 _ 0 (by decide) (by decide))
    (readAt_robot400 1 _ 375 (by decide) (by decide))
    (readAt_robot400 1 _ 25 (by decide) (by decide))

/-- C10 fails as stated: on `scanOpenAhead`, whose center ray reads `+infinity`
while the left and right rays read 1.0, `detect_obstacle` returns false; it
also returns false when the three sampled rays all read NaN. -/
theorem sentinel_reading_not_blocked :
    detect_obstacle (scan_callback Robot.Robot scanOpenAhead) = some (false,
        { scan_callback Robot.Robot scanOpenAhead with
          center_dist_ := Flt.posInf
          left_dist_ := Flt.finite 1
          right_dist_ := Flt.finite 1 })
      ∧ detect_obstacle (robot400 1 Flt.nan) = some (false,
        { robot400 1 Flt.nan with
          center_dist_ := Flt.nan
          left_dist_ := Flt.nan
          right_dist_ := Flt.nan }) := by
  constructor
  · exact detect_obstacle_scanOpenAhead
  · rw [detect_obstacle_robot400]; rfl

/-- C11: deliver any samples `s1 .. sn` (n ≥ 1, written `ss ++ [sn]`) to
`scan_callback`.  Afterwards the stored sample is `sn`, equal to it in every
field, every other member of the object, the controller state included, is as
before, and nothing has been published. -/
theorem scan_callback_replaces (r : Robot) (ss : List SCAN) (sn : SCAN) :
    deliver r (ss ++ [sn]) = ({ r with scan_ := sn }, [])
      ∧ (deliver r (ss ++ [sn])).1.scan_ = sn
      ∧ (deliver r (ss ++ [sn])).1.state_ = r.state_
      ∧ (deliver r (ss ++ [sn])).2 = [] := by
  rw [deliver_append]
  exact ⟨rfl, rfl, rfl, rfl⟩

/-- C12: on every tick that passes the stamp guard and on which
`detect_obstacle` returns verdict `v`, whatever the starting state, the state
after the tick is `FORWARD` if and only if `v` is false.  So a verdict
"obstacle" never ends in `FORWARD`, and a published command with a positive
linear component is published only on a tick whose verdict is "no obstacle". -/
theorem forward_iff_clear (r r1 : Robot) (v : Bool)
    (hsec : r.scan_.header.stamp.sec ≠ 0)
    (hv : detect_obstacle r = some (v, r1)) :
    ∃ r2 out, timer_callback r = some (r2, out)
      ∧ (r2.state_ = FORWARD ↔ v = false)
      ∧ (v = true → r2.state_ ≠ FORWARD)
      ∧ (∀ m ∈ out, (Flt.lt (Flt.finite 0) m.linear.x = true
            ∨ Flt.lt (Flt.finite 0) m.linear.y = true
            ∨ Flt.lt (Flt.finite 0) m.linear.z = true) → v = false) := by
  refine ⟨_, _, timer_callback_step r r1 v hsec hv, specTable_forward_iff _ _, ?_, ?_⟩
  · intro h1 h2
    have := (specTable_forward_iff r.state_ v).1 h2
    rw [h1] at this
    cases this
  · intro m hm hp
    exact specTable_positive r.state_ v m hm hp

/-- Witness for C12: a halted robot holding a clear 400-ray sample stamped 1 s. -/
theorem forward_iff_clear_witness :
    ∃ r2 out, timer_callback (robot400 1 (Flt.finite 1)) = some (r2, out)
      ∧ (r2.state_ = FORWARD ↔ false = false)
      ∧ (false = true → r2.state_ ≠ FORWARD)
      ∧ (∀ m ∈ out, (Flt.lt (Flt.finite 0) m.linear.x = true
            ∨ Flt.lt (Flt.finite 0) m.linear.y = true
            ∨ Flt.lt (Flt.finite 0) m.linear.z = true) → false = false) :=
  forward_iff_clear (robot400 1 (Flt.finite 1)) _ false (by decide)
    (by rw [detect_obstacle_robot400, blocked3_one])

/-- C13: on every tick that returns, which is every tick stopped by the stamp
guard and every tick on which `detect_obstacle` returns, `timer_callback`
publishes a command if and only if it changes the state, never more than one,
and the command is the one that goes with the new state: forward (linear x 0.2)
for `FORWARD`, all zero for `STOP`, spin (angular z 0.1) for `TURN`. -/
theorem emits_iff_state_changes (r : Robot)
    (hd : r.scan_.header.stamp.sec = 0 ∨ ∃ v r1, detect_obstacle r = some (v, r1)) :
    ∃ r2 out, timer_callback r = some (r2, out)
      ∧ (out ≠ [] ↔ r2.state_ ≠ r.state_)
      ∧ (out = [] ∨ out = [commandFor r2.state_]) := by
  by_cases hsec : r.scan_.header.stamp.sec = 0
  · exact ⟨r, [], timer_callback_guard r hsec, by simp, Or.inl rfl⟩
  · rcases hd with h | ⟨v, r1, hv⟩
    · exact absurd h hsec
    · exact ⟨_, _, timer_callback_step r r1 v hsec hv, (specTable_emits_iff r.state_ v).1,
        (specTable_emits_iff r.state_ v).2⟩

/-- Witness for C13: a halted robot holding a clear 400-ray sample stamped 1 s. -/
theorem emits_iff_state_changes_witness :
    ∃ r2 out, timer_callback (robot400 1 (Flt.finite 1)) = some (r2, out)
      ∧ (out ≠ [] ↔ r2.state_ ≠ (robot400 1 (Flt.finite 1)).state_)
      ∧ (out = [] ∨ out = [commandFor r2.state_]) :=
  emits_iff_state_changes (robot400 1 (Flt.finite 1))
    (Or.inr ⟨false, _, by rw [detect_obstacle_robot400, blocked3_one]⟩)

/-- C14: deliver any sequence of samples, each followed by one
`timer_callback`, every tick classifying its sample as `v`.  From any starting
state, if `v` is "obstacle" the state is `TURN` after two ticks and after every
longer run, and if `v` is "no obstacle" the state is `FORWARD` after one tick
and after every longer run.  Moreover `STOP` is never kept by a tick that
passes the stamp guard: from `STOP` such a tick ends in another state. -/
theorem settles_within_two_ticks (r : Robot) (samples : List SCAN) (v : Bool)
    (hv : ∀ s ∈ samples, classified s v)
    (hn : (if v then 2 else 1) ≤ samples.length) :
    (∃ r2 out, run r samples = some (r2, out)
        ∧ r2.state_ = (if v then TURN else FORWARD))
      ∧ (∀ (h h1 : Robot) (w : Bool), h.state_ = STOP → h.scan_.header.stamp.sec ≠ 0 →
          detect_obstacle h = some (w, h1) →
          ∃ h2 out, timer_callback h = some (h2, out) ∧ h2.state_ ≠ STOP) := by
  constructor
  · obtain ⟨r2, out, h1, h2⟩ := run_classified r samples v hv
    exact ⟨r2, out, h1, by rw [h2, foldl_settles samples v r.state_ hn]⟩
  · intro h h1 w hst hsec hd
    refine ⟨_, _, timer_callback_step h h1 w hsec hd, ?_⟩
    show (specTable h.state_ w).1 ≠ STOP
    rw [hst]
    cases w <;> simp [specTable]

/-- Witness for C14: a robot in `FORWARD` given two samples that read 0.5
everywhere, stamped 1 s and 2 s. -/
theorem settles_within_two_ticks_witness :
    (∃ r2 out, run (robotIn FORWARD) [scan400 1 (Flt.finite 0.5), scan400 2 (Flt.finite 0.5)]
          = some (r2, out)
        ∧ r2.state_ = (if true then TURN else FORWARD))
      ∧ (∀ (h h1 : Robot) (w : Bool), h.state_ = STOP → h.scan_.header.stamp.sec ≠ 0 →
          detect_obstacle h = some (w, h1) →
          ∃ h2 out, timer_callback h = some (h2, out) ∧ h2.state_ ≠ STOP) :=
  settles_within_two_ticks (robotIn FORWARD)
    [scan400 1 (Flt.finite 0.5), scan400 2 (Flt.finite 0.5)] true
    (by
      intro s hs
      simp only [List.mem_cons, List.mem_singleton, List.not_mem_nil, or_false] at hs
      rcases hs with h | h <;> subst h
      · exact ⟨by decide, by rw [verdict_scan400, blocked3_half]⟩
      · exact ⟨by decide, by rw [verdict_scan400, blocked3_half]⟩)
    (by decide)

/-- C15, as amended: take two stored samples with the same `angle_min`,
`angle_max` and `angle_increment` whose range arrays hold the same three
readings at the subscripts `detect_obstacle` selects.  Then `detect_obstacle`
returns the same verdict on both, however the other entries differ; and if
moreover the two stamps are both zero or both nonzero, `timer_callback` from the
same state returns on both with the same next state and the same published
commands. -/
theorem verdict_through_three_rays (ra rb : Robot) (idx : Rays) (c l rt : Flt)
    (hmin : ra.scan_.angle_min = rb.scan_.angle_min)
    (hmax : ra.scan_.angle_max = rb.scan_.angle_max)
    (hinc : ra.scan_.angle_increment = rb.scan_.angle_increment)
    (hidx : ray_indices ra.scan_ = some idx)
    (hca : readAt ra.scan_.ranges idx.center = some c)
    (hcb : readAt rb.scan_.ranges idx.center = some c)
    (hla : readAt ra.scan_.ranges idx.left = some l)
    (hlb : readAt rb.scan_.ranges idx.left = some l)
    (hra : readAt ra.scan_.ranges idx.right = some rt)
    (hrb : readAt rb.scan_.ranges idx.right = some rt) :
    (∃ v a1 b1, detect_obstacle ra = some (v, a1) ∧ detect_obstacle rb = some (v, b1))
      ∧ (ra.state_ = rb.state_ →
          (ra.scan_.header.stamp.sec = 0 ↔ rb.scan_.header.stamp.sec = 0) →
          ∃ a2 b2 out, timer_callback ra = some (a2, out) ∧ timer_callback rb = some (b2, out)
            ∧ a2.state_ = b2.state_) := by
  have hidxb : ray_indices rb.scan_ = some idx := by
    rw [← ray_indices_congr ra.scan_ rb.scan_ hmin hmax hinc]; exact hidx
  have hda := detect_obstacle_of_reads ra idx c l rt hidx hca hla hra
  have hdb := detect_obstacle_of_reads rb idx c l rt hidxb hcb hlb hrb
  refine ⟨⟨_, _, _, hda, hdb⟩, ?_⟩
  intro hst hsec
  by_cases h0 : ra.scan_.header.stamp.sec = 0
  · exact ⟨ra, rb, [], timer_callback_guard ra h0, timer_callback_guard rb (hsec.1 h0), hst⟩
  · have h0b : rb.scan_.header.stamp.sec ≠ 0 := fun h => h0 (hsec.2 h)
    have ta := timer_callback_step ra _ _ h0 hda
    have tb := timer_callback_step rb _ _ h0b hdb
    rw [← hst] at tb
    exact ⟨_, _, _, ta, tb, rfl⟩

/-- Witness for C15: the clear 400-ray sample and `scanCluttered`, which agrees
with it at subscripts 0, 25 and 375 and reads 0.1 everywhere else. -/
theorem verdict_through_three_rays_witness :
    (∃ v a1 b1, detect_obstacle (robot400 1 (Flt.finite 1)) = some (v, a1)
        ∧ detect_obstacle (scan_callback Robot.Robot scanCluttered) = some (v, b1))
      ∧ ((robot400 1 (Flt.finite 1)).state_ = (scan_callback Robot.Robot scanCluttered).state_ →
          ((robot400 1 (Flt.finite 1)).scan_.header.stamp.sec = 0
            ↔ (scan_callback Robot.Robot scanCluttered).scan_.header.stamp.sec = 0) →
          ∃ a2 b2 out, timer_callback (robot400 1 (Flt.finite 1)) = some (a2, out)
            ∧ timer_callback (scan_callback Robot.Robot scanCluttered) = some (b2, out)
            ∧ a2.state_ = b2.state_) :=
  verdict_through_three_rays (robot400 1 (Flt.finite 1))
    (scan_callback Robot.Robot scanCluttered)
    { center := 0, left := 375, right := 25 } (Flt.finite 1) (Flt.finite 1) (Flt.finite 1)
    rfl rfl rfl (ray_indices_scan400 1 (Flt.finite 1))
    (readAt_robot400 1 _ 0 (by decide) (by decide))
    (readAt_scanCluttered 0 (by decide))
    (readAt_robot400 1 _ 375 (by decide) (by decide))
    (readAt_scanCluttered 375 (by decide))
    (readAt_robot400 1 _ 25 (by decide) (by decide))
    (readAt_scanCluttered 25 (by decide))

/-- C15 fails as stated: two halted robots hold 400-ray samples with the same
three angles and the same range array, clear everywhere, so `detect_obstacle`
gives "no obstacle" on both; but one sample is stamped 0 s and the other 1 s,
and `timer_callback` leaves the first robot in `STOP` with nothing published
while it moves the second to `FORWARD` and publishes the forward command. -/
theorem same_rays_different_tick :
    (scan400 0 (Flt.finite 1)).angle_min = (scan400 1 (Flt.finite 1)).angle_min
      ∧ (scan400 0 (Flt.finite 1)).angle_max = (scan400 1 (Flt.finite 1)).angle_max
      ∧ (scan400 0 (Flt.finite 1)).angle_increment
          = (scan400 1 (Flt.finite 1)).angle_increment
      ∧ (scan400 0 (Flt.finite 1)).ranges = (scan400 1 (Flt.finite 1)).ranges
      ∧ (robot400 0 (Flt.finite 1)).state_ = (robot400 1 (Flt.finite 1)).state_
      ∧ (∃ a1 b1, detect_obstacle (robot400 0 (Flt.finite 1)) = some (false, a1)
          ∧ detect_obstacle (robot400 1 (Flt.finite 1)) = some (false, b1))
      ∧ timer_callback (robot400 0 (Flt.finite 1)) = some (robot400 0 (Flt.finite 1), [])
      ∧ (∃ b2, timer_callback (robot400 1 (Flt.finite 1)) = some (b2, [forwardCmd])
          ∧ b2.state_ = FORWARD) := by
  have hd : ∀ sec : Int, detect_obstacle (robot400 sec (Flt.finite 1)) = some (false,
      { robot400 sec (Flt.finite 1) with
        center_dist_ := Flt.finite 1
        left_dist_ := Flt.finite 1
        right_dist_ := Flt.finite 1 }) := by
    intro sec
    rw [detect_obstacle_robot400, blocked3_one]
  refine ⟨rfl, rfl, rfl, rfl, rfl, ⟨_, _, hd 0, hd 1⟩, timer_callback_guard _ rfl, ?_⟩
  exact ⟨_, timer_callback_step (robot400 1 (Flt.finite 1)) _ false (by decide) (hd 1), rfl⟩

/-- C16, as amended: for every sample with `angle_min ≠ 0` and
`angle_increment > 0`, `angle_min` and `angle_max` being binary32 values, and a
range array of at most `(angle_max - angle_min) / angle_increment + 1` elements
and at most 100000000, the right subscript computed by `detect_obstacle` (the
center one plus 25, fitting an `int`) is at least the number of ranges: the read
is outside the array and `detect_obstacle` has no defined result. -/
theorem right_ray_past_end (s : SCAN) (amin amax inc X : ℚ)
    (hmin : s.angle_min = Flt.finite amin) (hne : amin ≠ 0)
    (hmax : s.angle_max = Flt.finite amax)
    (hinc : s.angle_increment = Flt.finite inc) (hpos : 0 < inc)
    (fmin : Flt.isF32 amin = true) (fmax : Flt.isF32 amax = true)
    (hcount : (s.ranges.length : ℚ) ≤ (amax - amin) / inc + 1)
    (hbig : s.ranges.length ≤ 100000000)
    (hX : Flt.sub (Flt.div (Flt.sub (Flt.finite amax) (Flt.finite amin)) (Flt.finite inc))
      (Flt.finite 1) = Flt.finite X)
    (hhi : Flt.trunc X + 25 ≤ Flt.INT_MAX) :
    ∃ idx : Rays, ray_indices s = some idx
      ∧ idx.right = idx.center + 25
      ∧ (s.ranges.length : Int) ≤ idx.right
      ∧ readAt s.ranges idx.right = none
      ∧ ∀ r : Robot, r.scan_ = s → detect_obstacle r = none := by
  obtain ⟨m, hg⟩ := Flt.sub_grid amax amin fmax fmin
  have hbq : (s.ranges.length : ℚ) ≤ 100000000 := by exact_mod_cast hbig
  have hlow := center_lower amin amax inc X (s.ranges.length : ℚ) m hpos hg
    (Nat.cast_nonneg _) (by linarith) hbq hX
  have hgt := trunc_gt X
  have h2 : ((s.ranges.length : Int) : ℚ) < ((Flt.trunc X + 26 : Int) : ℚ) := by
    push_cast; linarith
  have h2i : (s.ranges.length : Int) < Flt.trunc X + 26 := by exact_mod_cast h2
  have h2j : (s.ranges.length : Int) ≤ Flt.trunc X + 25 := by omega
  have hX2 : Flt.sub (Flt.div (Flt.sub s.angle_max s.angle_min) s.angle_increment)
      (Flt.finite 1) = Flt.finite X := by rw [hmax, hmin, hinc]; exact hX
  have hidx := ray_indices_nonzero s amin X hmin hne hX2
    (by simp only [Flt.INT_MIN]; omega) hhi
  have hread : readAt s.ranges (Flt.trunc X + 25) = none := by
    have h0 : 0 ≤ Flt.trunc X + 25 := by omega
    have h3 : s.ranges.length ≤ (Flt.trunc X + 25).toNat := by omega
    simp [readAt, h0, List.getElem?_eq_none h3]
  refine ⟨_, hidx, rfl, h2j, hread, ?_⟩
  intro r hr
  subst hr
  exact detect_obstacle_none_of_read r _ hidx (Or.inr (Or.inr hread))

/-- Witness for C16: `scanSym`, 193 ranges over 192 increments, right subscript 216. -/
theorem right_ray_past_end_witness :
    ∃ idx : Rays, ray_indices scanSym = some idx
      ∧ idx.right = idx.center + 25
      ∧ (scanSym.ranges.length : Int) ≤ idx.right
      ∧ readAt scanSym.ranges idx.right = none
      ∧ ∀ r : Robot, r.scan_ = scanSym → detect_obstacle r = none :=
  right_ray_past_end scanSym (-1.5) 1.5 0.015625 191 rfl (by norm_num) rfl rfl (by norm_num)
    (Flt.isF32_of_eq (-1.5) (-3) (-1) (by norm_num) (by decide) (by decide) (by decide))
    (Flt.isF32_of_eq 1.5 3 (-1) (by norm_num) (by decide) (by decide) (by decide))
    (by
      have h4 : scanSym.ranges.length = 193 := rfl
      rw [h4]; norm_num)
    (by
      have h4 : scanSym.ranges.length = 193 := rfl
      rw [h4]; decide)
    center_expr_scanSym
    (by
      have ht : Flt.trunc (191 : ℚ) = 191 := by exact_mod_cast trunc_intCast 191
      rw [ht]; decide)

/-- C16 fails as stated: `scanHuge` has `angle_min = -31`, `angle_max =
536870912`, `angle_increment = 1` and 536870944 ranges, one more than the
536870943 increments of its span.  In single precision the span rounds to
536870912 and so does the quotient minus 1, so the center subscript is 536870912
and the right one 536870937, which is less than the number of ranges: the read
is inside the array and `detect_obstacle` returns a verdict. -/
theorem right_ray_inside_huge_array :
    scanHuge.angle_min = Flt.finite (-31)
      ∧ scanHuge.angle_max = Flt.finite 536870912
      ∧ scanHuge.angle_increment = Flt.finite 1
      ∧ (scanHuge.ranges.length : ℚ) ≤ (536870912 - (-31)) / 1 + 1
      ∧ ray_indices scanHuge
          = some { center := 536870912, left := 536870887, right := 536870937 }
      ∧ (536870937 : Int) < scanHuge.ranges.length
      ∧ detect_obstacle (scan_callback Robot.Robot scanHuge) = some (false,
          { scan_callback Robot.Robot scanHuge with
            center_dist_ := Flt.finite 1
            left_dist_ := Flt.finite 1
            right_dist_ := Flt.finite 1 }) := by
  have h4 : scanHuge.ranges.length = 536870944 := List.length_replicate _ _
  refine ⟨rfl, rfl, rfl, ?_, ray_indices_scanHuge, ?_, detect_obstacle_scanHuge⟩
  · rw [h4]; norm_num
  · rw [h4]; norm_num

/-- C17: the guard of `timer_callback` looks at `scan_.header.stamp.sec` only.
With a stored sample stamped 0 s, whatever its other fields and whether or not
`scan_callback` stored it, the call returns the object unchanged (state and the
three distances that `detect_obstacle` would have written included) and
publishes nothing, even where `detect_obstacle` has no defined result.  With a
stamp other than 0 s the call runs `detect_obstacle` and, on its verdict, takes
the cell of the state table. -/
theorem guard_keyed_on_stamp (r : Robot) (msg : SCAN) :
    (r.scan_.header.stamp.sec = 0 → timer_callback r = some (r, []))
      ∧ (msg.header.stamp.sec = 0 →
          timer_callback (scan_callback r msg) = some (scan_callback r msg, []))
      ∧ (r.scan_.header.stamp.sec ≠ 0 →
          timer_callback r = (detect_obstacle r).bind (fun p =>
            some ({ p.2 with state_ := (specTable r.state_ p.1).1 },
              (specTable r.state_ p.1).2))) := by
  refine ⟨timer_callback_guard r, fun h => timer_callback_guard (scan_callback r msg) h, ?_⟩
  intro hsec
  cases hd : detect_obstacle r with
  | none => cases hst : r.state_ <;> simp [timer_callback, hsec, hst, hd]
  | some p =>
    obtain ⟨v, r1⟩ := p
    rw [timer_callback_step r r1 v hsec hd]
    rfl

/-- Witness for C17: a sample stamped 0 s on which `detect_obstacle` is
undefined (`scanShort` restamped) is skipped, and a clear sample stamped 1 s
takes the cell (`STOP`, no obstacle). -/
theorem guard_keyed_on_stamp_witness :
    timer_callback (scan_callback Robot.Robot
        { scanShort with header := { stamp := { sec := 0, nanosec := 7 }, frame_id := "laser" } })
      = some (scan_callback Robot.Robot
        { scanShort with header := { stamp := { sec := 0, nanosec := 7 }, frame_id := "laser" } },
          [])
      ∧ timer_callback (robot400 1 (Flt.finite 1))
        = (detect_obstacle (robot400 1 (Flt.finite 1))).bind (fun p =>
            some ({ p.2 with state_ := (specTable (robot400 1 (Flt.finite 1)).state_ p.1).1 },
              (specTable (robot400 1 (Flt.finite 1)).state_ p.1).2)) :=
  ⟨(guard_keyed_on_stamp Robot.Robot
      { scanShort with header := { stamp := { sec := 0, nanosec := 7 }, frame_id := "laser" } }).2.1
      rfl,
    (guard_keyed_on_stamp (robot400 1 (Flt.finite 1)) SCAN.init).2.2 (by decide)⟩

end Walker
